import Mathlib

/-
  Verification development for the octopus-connect data-access layer.

  The TypeScript sources are shallowly embedded:
  * JavaScript scalar values become `JsValue` (with `vUndefined` for `undefined`);
    JS strict equality `===` on these scalars is Lean equality on `JsValue`.
  * JavaScript plain objects (attribute maps, filter objects) become
    association lists `List (String × JsValue)` preserving insertion order,
    as `Object.keys` does for string keys.  Property read, write and `delete`
    are `omGet`, `omSet`, `omDelete`.
  * rxjs subjects are modelled by numeric stream identifiers pointing into an
    explicit buffer heap; a `ReplaySubject(1)` buffer is an
    `Option` of the latest value.  Emissions are returned as explicit event
    lists instead of being pushed to subscribers.
-/

set_option autoImplicit false

/-- JavaScript scalar values as used by the connector (ids, attribute values). -/
inductive JsValue where
  | vUndefined : JsValue
  | vNull : JsValue
  | vBool (b : Bool) : JsValue
  | vNum (n : Int) : JsValue
  | vStr (s : String) : JsValue
  deriving DecidableEq, Repr

/-- JavaScript truthiness of a scalar value. -/
def JsValue.truthy : JsValue → Bool
  | .vUndefined => false
  | .vNull => false
  | .vBool b => b
  | .vNum n => n != 0
  | .vStr s => s != ""

/-- JavaScript property-key coercion (`ToString`) for values used as object keys. -/
def jsPropKey : JsValue → String
  | .vUndefined => "undefined"
  | .vNull => "null"
  | .vBool b => if b then "true" else "false"
  | .vNum n => toString n
  | .vStr s => s

/-- A JavaScript plain object: ordered association list of string keys to values. -/
abbrev JsObject := List (String × JsValue)

/-- Source type `FilterData`: a flat filter object. -/
abbrev FilterData := JsObject

/-- Source type `EntityDataSet`: raw entity data. -/
abbrev EntityDataSet := JsObject

/-- First-match association-list lookup (JS property access, general key/value types). -/
def alookup {α β : Type} [DecidableEq α] : List (α × β) → α → Option β
  | [], _ => none
  | (k, v) :: rest, key => if k = key then some v else alookup rest key

/-- JS property assignment: overwrite in place if the key exists, else append. -/
def aset {α β : Type} [DecidableEq α] : List (α × β) → α → β → List (α × β)
  | [], key, v => [(key, v)]
  | (k, w) :: rest, key, v =>
      if k = key then (k, v) :: rest else (k, w) :: aset rest key v

/-- JS `delete obj[key]`: removes every binding of the key. -/
def adelete {α β : Type} [DecidableEq α] : List (α × β) → α → List (α × β)
  | [], _ => []
  | (k, w) :: rest, key =>
      if k = key then adelete rest key else (k, w) :: adelete rest key

/-- JS property read on an object: an absent key reads as `undefined`. -/
def omGet (m : JsObject) (key : String) : JsValue :=
  (alookup m key).getD .vUndefined

/-- JS property write on an object. -/
def omSet (m : JsObject) (key : String) (v : JsValue) : JsObject :=
  aset m key v

/-- JS `delete` on an object. -/
def omDelete (m : JsObject) (key : String) : JsObject :=
  adelete m key

/-- `Object.keys`: the keys of the object in insertion order. -/
def omKeys (m : JsObject) : List String :=
  m.map Prod.fst

/-- Well-formedness of a JS object: each key bound once (guaranteed by the runtime). -/
def omWF (m : JsObject) : Prop :=
  (omKeys m).Nodup

instance (m : JsObject) : Decidable (omWF m) := by
  unfold omWF; infer_instance

/- ───────────────────────── association-list lemmas ───────────────────────── -/

theorem alookup_aset_self {α β : Type} [DecidableEq α] (m : List (α × β)) (k : α) (v : β) :
    alookup (aset m k v) k = some v := by
  induction m with
  | nil => simp [alookup, aset]
  | cons p rest ih =>
    obtain ⟨k0, v0⟩ := p
    by_cases h : k0 = k
    · simp [alookup, aset, h]
    · simp [alookup, aset, h, ih]

theorem alookup_aset_ne {α β : Type} [DecidableEq α] (m : List (α × β)) (k k' : α) (v : β)
    (h : k' ≠ k) : alookup (aset m k v) k' = alookup m k' := by
  induction m with
  | nil => simp [alookup, aset, Ne.symm h]
  | cons p rest ih =>
    obtain ⟨k0, v0⟩ := p
    by_cases h0 : k0 = k
    · subst h0
      simp [alookup, aset, Ne.symm h]
    · by_cases h1 : k0 = k'
      · simp [alookup, aset, h0, h1, h]
      · simp [alookup, aset, h0, h1, ih]

theorem alookup_adelete_self {α β : Type} [DecidableEq α] (m : List (α × β)) (k : α) :
    alookup (adelete m k) k = none := by
  induction m with
  | nil => simp [adelete, alookup]
  | cons p rest ih =>
    obtain ⟨k0, v0⟩ := p
    by_cases h : k0 = k
    · simp [adelete, h, ih]
    · simp [adelete, alookup, h, ih]

theorem alookup_adelete_ne {α β : Type} [DecidableEq α] (m : List (α × β)) (k k' : α)
    (h : k' ≠ k) : alookup (adelete m k) k' = alookup m k' := by
  induction m with
  | nil => simp [adelete]
  | cons p rest ih =>
    obtain ⟨k0, v0⟩ := p
    by_cases h0 : k0 = k
    · subst h0
      simp [adelete, alookup, Ne.symm h, ih]
    · simp [adelete, alookup, h0, ih]

theorem alookup_eq_none_of_not_mem {α β : Type} [DecidableEq α] (m : List (α × β)) (k : α)
    (h : k ∉ m.map Prod.fst) : alookup m k = none := by
  induction m with
  | nil => rfl
  | cons p rest ih =>
    obtain ⟨k0, v0⟩ := p
    simp only [List.map_cons, List.mem_cons] at h
    push_neg at h
    have hne : k0 ≠ k := Ne.symm h.1
    simp [alookup, hne, ih h.2]

theorem alookup_mem_of_nodup {α β : Type} [DecidableEq α] (m : List (α × β)) (k : α) (v : β)
    (hnd : (m.map Prod.fst).Nodup) (hmem : (k, v) ∈ m) : alookup m k = some v := by
  induction m with
  | nil => cases hmem
  | cons p rest ih =>
    obtain ⟨k0, v0⟩ := p
    simp only [List.map_cons, List.nodup_cons] at hnd
    rcases List.mem_cons.mp hmem with h | h
    · obtain ⟨h1, h2⟩ := Prod.mk.injEq k0 v0 k v ▸ h.symm
      simp [alookup, h1.symm, h2]
    · have hk : k0 ≠ k := by
        intro he
        exact hnd.1 (he ▸ (List.mem_map.mpr ⟨(k, v), h, rfl⟩))
      simp [alookup, hk, ih hnd.2 h]

theorem omGet_nil (k : String) : omGet [] k = .vUndefined := rfl

theorem omGet_eq_vUndefined_of_not_mem (m : JsObject) (k : String) (h : k ∉ omKeys m) :
    omGet m k = .vUndefined := by
  simp [omGet, alookup_eq_none_of_not_mem m k h]

theorem omGet_omSet_self (m : JsObject) (k : String) (v : JsValue) :
    omGet (omSet m k v) k = v := by
  simp [omGet, omSet, alookup_aset_self]

theorem omGet_omSet_ne (m : JsObject) (k k' : String) (v : JsValue) (h : k' ≠ k) :
    omGet (omSet m k v) k' = omGet m k' := by
  simp [omGet, omSet, alookup_aset_ne m k k' v h]

theorem omGet_omDelete_self (m : JsObject) (k : String) :
    omGet (omDelete m k) k = .vUndefined := by
  simp [omGet, omDelete, alookup_adelete_self]

theorem omGet_omDelete_ne (m : JsObject) (k k' : String) (h : k' ≠ k) :
    omGet (omDelete m k) k' = omGet m k' := by
  simp [omGet, omDelete, alookup_adelete_ne m k k' h]

/- ───────────────────────── CollectionStore.filterMatching ───────────────────────── -/

/--
Transcription of `CollectionStore.filterMatching` (collection-store.class.ts).
A `none` argument models a `null` filter (the source's `!filter1 || !filter2`
guard); per the source's default parameters, a JS `undefined` argument is
replaced by the empty object before the body runs, so it is passed here
as `some []`.
-/
def filterMatching : Option FilterData → Option FilterData → Bool
  | some filter1, some filter2 =>
      let filter1Keys := omKeys filter1
      let filter2Keys := omKeys filter2
      if filter1Keys.length != filter2Keys.length then false
      else if filter1Keys.any (fun key => !(filter2Keys.contains key)) then false
      else filter1Keys.all (fun key => omGet filter1 key == omGet filter2 key)
  | _, _ => false

theorem filterMatching_none_left (g : Option FilterData) : filterMatching none g = false := by
  cases g <;> rfl

theorem filterMatching_none_right (g : Option FilterData) : filterMatching g none = false := by
  cases g <;> rfl

theorem length_le_of_nodup_subset {α : Type} [DecidableEq α] (l1 l2 : List α)
    (hnd : l1.Nodup) (hsub : ∀ x, x ∈ l1 → x ∈ l2) : l1.length ≤ l2.length := by
  have h1 : l1.toFinset.card = l1.length := List.toFinset_card_of_nodup hnd
  have hsub' : l1.toFinset ⊆ l2.toFinset := by
    intro x hx
    exact List.mem_toFinset.mpr (hsub x (List.mem_toFinset.mp hx))
  calc l1.length = l1.toFinset.card := h1.symm
    _ ≤ l2.toFinset.card := Finset.card_le_card hsub'
    _ ≤ l2.length := l2.toFinset_card_le

theorem mem_iff_of_nodup_subset_length {α : Type} [DecidableEq α] (l1 l2 : List α)
    (hnd1 : l1.Nodup) (hnd2 : l2.Nodup) (hsub : ∀ x, x ∈ l1 → x ∈ l2)
    (hlen : l1.length = l2.length) : ∀ x, x ∈ l1 ↔ x ∈ l2 := by
  have h1 : l1.toFinset.card = l1.length := List.toFinset_card_of_nodup hnd1
  have h2 : l2.toFinset.card = l2.length := List.toFinset_card_of_nodup hnd2
  have hsub' : l1.toFinset ⊆ l2.toFinset := by
    intro x hx
    exact List.mem_toFinset.mpr (hsub x (List.mem_toFinset.mp hx))
  have hcard : l2.toFinset.card ≤ l1.toFinset.card := by omega
  have heq : l1.toFinset = l2.toFinset := Finset.eq_of_subset_of_card_le hsub' hcard
  intro x
  rw [← List.mem_toFinset, ← List.mem_toFinset, heq]

theorem filterMatching_eq_true_iff (f1 f2 : FilterData) :
    filterMatching (some f1) (some f2) = true ↔
      ((omKeys f1).length = (omKeys f2).length ∧
       (∀ k ∈ omKeys f1, k ∈ omKeys f2) ∧
       (∀ k ∈ omKeys f1, omGet f1 k = omGet f2 k)) := by
  have heq : filterMatching (some f1) (some f2) =
      (if ((omKeys f1).length != (omKeys f2).length) then false
       else if ((omKeys f1).any fun key => !(omKeys f2).contains key) then false
       else (omKeys f1).all fun key => omGet f1 key == omGet f2 key) := rfl
  rw [heq]
  constructor
  · intro h
    split at h
    · cases h
    · split at h
      · cases h
      · next hlen hany =>
        refine ⟨by simpa using hlen, ?_, ?_⟩
        · intro k hk
          by_contra hk2
          exact hany (List.any_eq_true.mpr ⟨k, hk, by simp [hk2]⟩)
        · intro k hk
          exact beq_iff_eq.mp (List.all_eq_true.mp h k hk)
  · rintro ⟨hlen, hsub, hvals⟩
    have h1 : ((omKeys f1).length != (omKeys f2).length) = false := by simpa using hlen
    have h2 : ((omKeys f1).any fun key => !(omKeys f2).contains key) = false := by
      refine List.any_eq_false.mpr ?_
      intro k hk
      simp [hsub k hk]
    simp only [h1, h2, Bool.false_eq_true, if_false, List.all_eq_true]
    intro k hk
    exact beq_iff_eq.mpr (hvals k hk)

theorem filterMatching_spec (f1 f2 : FilterData) (h1 : omWF f1) (h2 : omWF f2) :
    filterMatching (some f1) (some f2) = true ↔
      ((∀ k, k ∈ omKeys f1 ↔ k ∈ omKeys f2) ∧ (∀ k, omGet f1 k = omGet f2 k)) := by
  rw [filterMatching_eq_true_iff]
  constructor
  · rintro ⟨hlen, hsub, hvals⟩
    have hmem := mem_iff_of_nodup_subset_length (omKeys f1) (omKeys f2) h1 h2 hsub hlen
    refine ⟨hmem, fun k => ?_⟩
    by_cases hk : k ∈ omKeys f1
    · exact hvals k hk
    · have hk2 : k ∉ omKeys f2 := fun hh => hk ((hmem k).mpr hh)
      rw [omGet_eq_vUndefined_of_not_mem f1 k hk, omGet_eq_vUndefined_of_not_mem f2 k hk2]
  · rintro ⟨hmem, hvals⟩
    have hlen : (omKeys f1).length = (omKeys f2).length := by
      have ha := length_le_of_nodup_subset (omKeys f1) (omKeys f2) h1
        (fun x hx => (hmem x).mp hx)
      have hb := length_le_of_nodup_subset (omKeys f2) (omKeys f1) h2
        (fun x hx => (hmem x).mpr hx)
      omega
    exact ⟨hlen, fun k hk => (hmem k).mp hk, fun k _ => hvals k⟩

/--
Claim C4: `filterMatching(f1, f2)` returns true only if both filters are
non-null, have exactly the same key set, and identical values for every key;
any pair differing in at least one key or value yields false, independently
of key order.
-/
theorem C4_filterMatching_correct (f1 f2 : FilterData) (h1 : omWF f1) (h2 : omWF f2) :
    (filterMatching (some f1) (some f2) = true ↔
      ((∀ k, k ∈ omKeys f1 ↔ k ∈ omKeys f2) ∧ (∀ k, omGet f1 k = omGet f2 k))) ∧
    (∀ g, filterMatching none g = false) ∧
    (∀ g, filterMatching g none = false) := by
  exact ⟨filterMatching_spec f1 f2 h1 h2, filterMatching_none_left, filterMatching_none_right⟩

/--
Witness for C4 at concrete inputs: two key-order-permuted equal filters match,
and the same filters with one value changed do not.
-/
theorem C4_filterMatching_correct_witness :
    omWF [("status", JsValue.vStr "open"), ("author", JsValue.vNum 7)] ∧
    omWF [("author", JsValue.vNum 7), ("status", JsValue.vStr "open")] ∧
    (filterMatching (some [("status", JsValue.vStr "open"), ("author", JsValue.vNum 7)])
        (some [("author", JsValue.vNum 7), ("status", JsValue.vStr "open")]) = true ↔
      ((∀ k, k ∈ omKeys [("status", JsValue.vStr "open"), ("author", JsValue.vNum 7)] ↔
          k ∈ omKeys [("author", JsValue.vNum 7), ("status", JsValue.vStr "open")]) ∧
        (∀ k, omGet [("status", JsValue.vStr "open"), ("author", JsValue.vNum 7)] k =
          omGet [("author", JsValue.vNum 7), ("status", JsValue.vStr "open")] k))) ∧
    (∀ g, filterMatching none g = false) ∧
    (∀ g, filterMatching g none = false) :=
  ⟨by decide, by decide,
    C4_filterMatching_correct _ _ (by decide) (by decide)⟩

/- ───────────────────────── fold helpers for object-building loops ───────────────────────── -/

/-- Loops of the shape `keys.forEach(k => { if (p k) out[k] = f k })`, read back. -/
theorem foldl_omSet_if_get (p : String → Bool) (f : String → JsValue) (ks : List String)
    (d0 : JsObject) (key : String) :
    omGet (ks.foldl (fun d k => if p k then omSet d k (f k) else d) d0) key =
      if key ∈ ks ∧ p key then f key else omGet d0 key := by
  induction ks generalizing d0 with
  | nil => simp
  | cons k rest ih =>
    simp only [List.foldl_cons]
    rw [ih]
    by_cases hmem : key ∈ rest ∧ p key = true
    · simp [hmem, List.mem_cons, hmem.1, hmem.2]
    · by_cases hk : key = k
      · subst hk
        by_cases hp : p key = true
        · simp [hmem, hp, omGet_omSet_self]
        · simp [hmem, hp]
      · have hstep : omGet (if p k then omSet d0 k (f k) else d0) key = omGet d0 key := by
          by_cases hp : p k = true
          · simp [hp, omGet_omSet_ne d0 k key (f k) hk]
          · simp [hp]
        rw [if_neg hmem, hstep]
        have : ¬(key ∈ k :: rest ∧ p key = true) := by
          intro hc
          rcases List.mem_cons.mp hc.1 with h | h
          · exact hk h
          · exact hmem ⟨h, hc.2⟩
        rw [if_neg this]

/-- A guarded insertion loop whose guard never fires leaves the accumulator unchanged. -/
theorem foldl_omSet_if_id (p : String → Bool) (f : String → JsValue) (ks : List String)
    (d0 : JsObject) (hp : ∀ k ∈ ks, p k = false) :
    ks.foldl (fun d k => if p k then omSet d k (f k) else d) d0 = d0 := by
  induction ks with
  | nil => rfl
  | cons k rest ih =>
    simp only [List.foldl_cons, hp k (List.mem_cons_self k rest), Bool.false_eq_true, if_false]
    exact ih (fun k' hk' => hp k' (List.mem_cons_of_mem k hk'))

/-- A guarded insertion loop whose guard fires for exactly one key builds a singleton. -/
theorem foldl_omSet_if_single (p : String → Bool) (f : String → JsValue) (ks : List String)
    (k0 : String) (hnd : ks.Nodup) (hk0 : k0 ∈ ks) (hp : ∀ k ∈ ks, (p k = true ↔ k = k0)) :
    ks.foldl (fun d k => if p k then omSet d k (f k) else d) [] = [(k0, f k0)] := by
  induction ks with
  | nil => cases hk0
  | cons k rest ih =>
    rcases List.nodup_cons.mp hnd with ⟨hknr, hndr⟩
    by_cases hk : k = k0
    · subst hk
      have hpk : p k = true := (hp k (List.mem_cons_self k rest)).mpr rfl
      simp only [List.foldl_cons, hpk, if_true]
      have : omSet [] k (f k) = [(k, f k)] := rfl
      rw [this]
      refine foldl_omSet_if_id p f rest [(k, f k)] ?_
      intro k' hk'
      by_cases hpk' : p k' = true
      · exact absurd ((hp k' (List.mem_cons_of_mem k hk')).mp hpk' ▸ hk') hknr
      · simpa using hpk'
    · have hpk : p k = false := by
        by_cases hpk : p k = true
        · exact absurd ((hp k (List.mem_cons_self k rest)).mp hpk) hk
        · simpa using hpk
      have hk0r : k0 ∈ rest := by
        rcases List.mem_cons.mp hk0 with h | h
        · exact absurd h.symm hk
        · exact h
      simp only [List.foldl_cons, hpk, Bool.false_eq_true, if_false]
      exact ih hndr hk0r (fun k' hk' => hp k' (List.mem_cons_of_mem k hk'))

/- ───────────────────────── DataEntity (data-entity.class.ts) ───────────────────────── -/

/--
Data entity unit object (`DataEntity`).  The `connector` back-reference and the
`embeddings`/`nesting`/`relationship` maps of the source class are not modelled:
they never influence `attributes`, `id` or the diff reference, which is all the
claims touch.
-/
structure DataEntity where
  type : String
  id : JsValue
  attributes : JsObject
  attributesRef : JsObject
  deriving DecidableEq, Repr

/--
`DataEntity.generateReferenceObject`: copy the attributes key by key into a
fresh reference object.
-/
def generateReferenceObject (attributes : JsObject) : JsObject :=
  (omKeys attributes).foldl (fun ref key => omSet ref key (omGet attributes key)) []

/--
The `DataEntity` constructor: populate `attributes` from the raw data skipping
the `id` key (for a well-formed JS object the insertion loop is exactly this
filter), take `data.id` as the id when truthy (the source's
`if (data.id) this.id = data.id` runs after `this.id = id`), and snapshot the
attributes as the diff reference.
-/
def mkDataEntity (type : String) (data : EntityDataSet) (id : JsValue) : DataEntity :=
  let attributes := data.filter (fun p => p.1 != "id")
  { type := type
    id := if (omGet data "id").truthy then omGet data "id" else id
    attributes := attributes
    attributesRef := generateReferenceObject attributes }

/-- `DataEntity.set`: JS property write on the attributes. -/
def DataEntity.set (e : DataEntity) (key : String) (value : JsValue) : DataEntity :=
  { e with attributes := omSet e.attributes key value }

/-- `DataEntity.get`: JS property read on the attributes. -/
def DataEntity.get (e : DataEntity) (key : String) : JsValue :=
  omGet e.attributes key

/-- `DataEntity.getClone`: key-by-key copy of the attributes. -/
def DataEntity.getClone (e : DataEntity) : EntityDataSet :=
  (omKeys e.attributes).foldl (fun clone key => omSet clone key (omGet e.attributes key)) []

/--
`DataEntity.getDiff`: keep every attribute key whose value is defined and
differs (strict inequality) from the reference snapshot.
-/
def DataEntity.getDiff (e : DataEntity) : EntityDataSet :=
  (omKeys e.attributes).foldl
    (fun diff key =>
      if omGet e.attributes key != JsValue.vUndefined &&
          omGet e.attributesRef key != omGet e.attributes key
      then omSet diff key (omGet e.attributes key) else diff) []

theorem generateReferenceObject_get (attributes : JsObject) (key : String) :
    omGet (generateReferenceObject attributes) key = omGet attributes key := by
  have heq : generateReferenceObject attributes =
      (omKeys attributes).foldl
        (fun d k => if (fun _ => true) k then omSet d k (omGet attributes k) else d) [] := by
    simp [generateReferenceObject]
  rw [heq, foldl_omSet_if_get]
  by_cases h : key ∈ omKeys attributes
  · simp [h]
  · simp [h, omGet_nil, omGet_eq_vUndefined_of_not_mem attributes key h]

theorem getClone_get (e : DataEntity) (key : String) :
    omGet e.getClone key = omGet e.attributes key := by
  have heq : e.getClone =
      (omKeys e.attributes).foldl
        (fun d k => if (fun _ => true) k then omSet d k (omGet e.attributes k) else d) [] := by
    simp [DataEntity.getClone]
  rw [heq, foldl_omSet_if_get]
  by_cases h : key ∈ omKeys e.attributes
  · simp [h]
  · simp [h, omGet_nil, omGet_eq_vUndefined_of_not_mem e.attributes key h]

theorem getDiff_get (e : DataEntity) (key : String) :
    omGet e.getDiff key =
      if omGet e.attributes key ≠ JsValue.vUndefined ∧
          omGet e.attributesRef key ≠ omGet e.attributes key
      then omGet e.attributes key else JsValue.vUndefined := by
  rw [DataEntity.getDiff, foldl_omSet_if_get]
  by_cases hc : omGet e.attributes key ≠ JsValue.vUndefined ∧
      omGet e.attributesRef key ≠ omGet e.attributes key
  · have hmem : key ∈ omKeys e.attributes := by
      by_contra hmem
      exact hc.1 (omGet_eq_vUndefined_of_not_mem e.attributes key hmem)
    have hp : (omGet e.attributes key != JsValue.vUndefined &&
        omGet e.attributesRef key != omGet e.attributes key) = true := by
      simp [hc.1, hc.2]
    simp [hmem, hp, hc]
  · have hp : (omGet e.attributes key != JsValue.vUndefined &&
        omGet e.attributesRef key != omGet e.attributes key) = false := by
      rcases not_and_or.mp hc with h | h
      · simp [not_not.mp h]
      · simp [not_not.mp h]
    simp [hp, hc, omGet_nil]

theorem omKeys_omSet (m : JsObject) (k : String) (v : JsValue) :
    omKeys (omSet m k v) = if k ∈ omKeys m then omKeys m else omKeys m ++ [k] := by
  induction m with
  | nil => simp [omSet, aset, omKeys]
  | cons p rest ih =>
    obtain ⟨k0, v0⟩ := p
    by_cases h : k0 = k
    · subst h
      simp [omSet, aset, omKeys]
    · have hstep : omSet ((k0, v0) :: rest) k v = (k0, v0) :: omSet rest k v := by
        simp [omSet, aset, h]
      rw [hstep]
      have hkeys : omKeys ((k0, v0) :: omSet rest k v) = k0 :: omKeys (omSet rest k v) := rfl
      rw [hkeys, ih]
      by_cases hmem : k ∈ omKeys rest
      · have hm2 : k ∈ omKeys ((k0, v0) :: rest) := List.mem_cons_of_mem _ hmem
        simp only [hmem, if_true, hm2]
        rfl
      · have hnotin : k ∉ omKeys ((k0, v0) :: rest) := by
          intro hc
          rcases List.mem_cons.mp hc with hc | hc
          · exact h hc.symm
          · exact hmem hc
        simp only [hmem, if_false, hnotin]
        rfl

theorem omWF_omSet (m : JsObject) (k : String) (v : JsValue) (h : omWF m) :
    omWF (omSet m k v) := by
  unfold omWF
  rw [omKeys_omSet]
  by_cases hmem : k ∈ omKeys m
  · simp only [hmem, if_true]
    exact h
  · simp only [hmem, if_false]
    refine List.Nodup.append h (List.nodup_singleton k) ?_
    intro a ha hb
    rw [List.mem_singleton.mp hb] at ha
    exact hmem ha

theorem mem_omKeys_omSet_self (m : JsObject) (k : String) (v : JsValue) :
    k ∈ omKeys (omSet m k v) := by
  rw [omKeys_omSet]
  by_cases hmem : k ∈ omKeys m
  · simp [hmem]
  · simp [hmem]

/--
Claim C7: `getDiff()` returns exactly the attributes whose current value is
defined and differs from the reference snapshot; it is empty immediately after
construction; after one setter call with a defined value different from the
snapshot it contains exactly that one field.
-/
theorem C7_getDiff_correct :
    (∀ (e : DataEntity) (key : String),
        omGet e.getDiff key =
          if omGet e.attributes key ≠ JsValue.vUndefined ∧
              omGet e.attributesRef key ≠ omGet e.attributes key
          then omGet e.attributes key else JsValue.vUndefined) ∧
    (∀ (type : String) (data : EntityDataSet) (id : JsValue),
        (mkDataEntity type data id).getDiff = []) ∧
    (∀ (e : DataEntity) (k : String) (v : JsValue),
        omWF e.attributes → e.attributesRef = e.attributes →
        v ≠ JsValue.vUndefined → v ≠ omGet e.attributes k →
        (e.set k v).getDiff = [(k, v)]) := by
  refine ⟨getDiff_get, ?_, ?_⟩
  · intro type data id
    have hrefEq : (mkDataEntity type data id).attributesRef =
        generateReferenceObject (mkDataEntity type data id).attributes := rfl
    unfold DataEntity.getDiff
    apply foldl_omSet_if_id
    intro k _
    rw [hrefEq, generateReferenceObject_get]
    simp
  · intro e k v hwf href hv hnew
    have h1 : (e.set k v).getDiff =
        (omKeys (omSet e.attributes k v)).foldl
          (fun diff key =>
            if omGet (omSet e.attributes k v) key != JsValue.vUndefined &&
                omGet e.attributesRef key != omGet (omSet e.attributes k v) key
            then omSet diff key (omGet (omSet e.attributes k v) key) else diff) [] := rfl
    rw [h1, href]
    have h2 := foldl_omSet_if_single
      (fun key => omGet (omSet e.attributes k v) key != JsValue.vUndefined &&
        omGet e.attributes key != omGet (omSet e.attributes k v) key)
      (fun key => omGet (omSet e.attributes k v) key)
      (omKeys (omSet e.attributes k v)) k
      (omWF_omSet e.attributes k v hwf)
      (mem_omKeys_omSet_self e.attributes k v)
      ?_
    · rw [h2]
      simp only [omGet_omSet_self]
    · intro k' _
      by_cases hk : k' = k
      · subst hk
        simp only [omGet_omSet_self]
        simp [hv, Ne.symm hnew]
      · simp only [omGet_omSet_ne e.attributes k k' v hk]
        simp [hk]

/--
Witness for C7: a concrete entity built from raw data `{a: 1}`; its diff is
empty after construction, and after `set("a", 2)` the diff is exactly
`{a: 2}`.
-/
theorem C7_getDiff_correct_witness :
    (mkDataEntity "t" [("a", JsValue.vNum 1)] (JsValue.vNum 5)).getDiff = [] ∧
    omWF (mkDataEntity "t" [("a", JsValue.vNum 1)] (JsValue.vNum 5)).attributes ∧
    (mkDataEntity "t" [("a", JsValue.vNum 1)] (JsValue.vNum 5)).attributesRef =
      (mkDataEntity "t" [("a", JsValue.vNum 1)] (JsValue.vNum 5)).attributes ∧
    ((mkDataEntity "t" [("a", JsValue.vNum 1)] (JsValue.vNum 5)).set "a"
        (JsValue.vNum 2)).getDiff = [("a", JsValue.vNum 2)] :=
  ⟨C7_getDiff_correct.2.1 "t" [("a", JsValue.vNum 1)] (JsValue.vNum 5),
    by decide, by decide,
    C7_getDiff_correct.2.2 (mkDataEntity "t" [("a", JsValue.vNum 1)] (JsValue.vNum 5))
      "a" (JsValue.vNum 2) (by decide) (by decide) (by decide) (by decide)⟩

/- ───────────────────────── DataCollection (data-collection.class.ts) ───────────────────────── -/

/--
Data collection object.  Entity observables are modelled by numeric stream
identifiers.  The `connector`, `structure` and `count` members of the source
class do not influence the operations verified here and are omitted.
-/
structure DataCollection where
  type : String
  paginated : Bool
  entities : List DataEntity
  entitiesObservables : List Nat
  deriving DecidableEq, Repr

/--
The replacement scan of `DataCollection.registerEntity`: the source walks
`this.entities` with a counter and replaces at the first member whose id
strictly equals the (truthy) new id; note the guard
`entity.id && entity.id === collectionEntity.id`.
-/
def registerEntityMatchIndex (entity : DataEntity) : List DataEntity → Option Nat
  | [] => none
  | collectionEntity :: rest =>
      if entity.id.truthy && entity.id == collectionEntity.id then some 0
      else
        match registerEntityMatchIndex entity rest with
        | some count => some (count + 1)
        | none => none

/--
`DataCollection.registerEntity`: replace in place at the first id match
(guarded by truthiness of the new entity's id), else append entity and
observable.
-/
def DataCollection.registerEntity (c : DataCollection) (entity : DataEntity)
    (entityObservable : Nat) : DataCollection :=
  match registerEntityMatchIndex entity c.entities with
  | some count =>
      { c with
        entities := c.entities.set count entity
        entitiesObservables := c.entitiesObservables.set count entityObservable }
  | none =>
      { c with
        entities := c.entities ++ [entity]
        entitiesObservables := c.entitiesObservables ++ [entityObservable] }

/--
One step of the `forEach` body of `DataCollection.deleteEntity`: index `k` is
visited only if it is still inside the (possibly already spliced) array, and a
matching id splices both parallel arrays at `k`.
-/
def deleteEntityStep (id : JsValue) (st : List DataEntity × List Nat) (k : Nat) :
    List DataEntity × List Nat :=
  match st.1[k]? with
  | some entity =>
      if entity.id == id then (st.1.eraseIdx k, st.2.eraseIdx k) else st
  | none => st

/--
The `forEach` traversal of `DataCollection.deleteEntity`: visits indices
`k, k+1, ...` for as many steps as the array had elements when the loop
started (JS `forEach` fixes the range up front and skips holes created by
`splice`).
-/
def deleteEntityLoop (id : JsValue) : Nat → Nat → List DataEntity × List Nat →
    List DataEntity × List Nat
  | 0, _, st => st
  | steps + 1, k, st => deleteEntityLoop id steps (k + 1) (deleteEntityStep id st k)

/-- `DataCollection.deleteEntity`: remove by id via the `forEach`/`splice` loop. -/
def DataCollection.deleteEntity (c : DataCollection) (id : JsValue) : DataCollection :=
  let st := deleteEntityLoop id c.entities.length 0 (c.entities, c.entitiesObservables)
  { c with entities := st.1, entitiesObservables := st.2 }

/- ───────────────────────── list helper lemmas ───────────────────────── -/

theorem list_set_of_getElem_eq {α : Type} (l : List α) (i : Nat) (a : α)
    (h : l[i]? = some a) : l.set i a = l := by
  induction l generalizing i with
  | nil => simp at h
  | cons x t ih =>
    cases i with
    | zero =>
      simp only [List.getElem?_cons_zero, Option.some.injEq] at h
      simp [List.set, h]
    | succ i =>
      simp only [List.getElem?_cons_succ] at h
      simp [List.set, ih i h]

theorem getElem?_eraseIdx_of_le {α : Type} (l : List α) (i j : Nat) (h : i ≤ j) :
    (l.eraseIdx i)[j]? = l[j + 1]? := by
  induction l generalizing i j with
  | nil => simp [List.eraseIdx]
  | cons x t ih =>
    cases i with
    | zero => simp [List.eraseIdx]
    | succ i =>
      cases j with
      | zero => omega
      | succ j =>
        simp only [List.eraseIdx, List.getElem?_cons_succ]
        exact ih i j (by omega)

/- ───────────────────────── registerEntityMatchIndex lemmas ───────────────────────── -/

theorem registerEntityMatchIndex_none_of_falsy (e : DataEntity) (es : List DataEntity)
    (h : e.id.truthy = false) : registerEntityMatchIndex e es = none := by
  induction es with
  | nil => rfl
  | cons m rest ih => simp [registerEntityMatchIndex, h, ih]

theorem registerEntityMatchIndex_none_of_no_match (e : DataEntity) (es : List DataEntity)
    (h : ∀ m ∈ es, m.id ≠ e.id) : registerEntityMatchIndex e es = none := by
  induction es with
  | nil => rfl
  | cons m rest ih =>
    have hb : (e.id == m.id) = false :=
      beq_eq_false_iff_ne.mpr (Ne.symm (h m (List.mem_cons_self m rest)))
    simp [registerEntityMatchIndex, hb,
      ih (fun m' hm' => h m' (List.mem_cons_of_mem m hm'))]

theorem registerEntityMatchIndex_first (e : DataEntity) (es : List DataEntity)
    (ht : e.id.truthy = true) :
    ∀ (i : Nat) (hi : i < es.length), (es.get ⟨i, hi⟩).id = e.id →
      (∀ (j : Nat) (hj : j < es.length), j < i → (es.get ⟨j, hj⟩).id ≠ e.id) →
      registerEntityMatchIndex e es = some i := by
  induction es with
  | nil => intro i hi; simp at hi
  | cons m rest ih =>
    intro i hi hmatch hfirst
    cases i with
    | zero =>
      have hb : (e.id == m.id) = true := beq_iff_eq.mpr hmatch.symm
      simp [registerEntityMatchIndex, ht, hb]
    | succ i =>
      have hm : m.id ≠ e.id := hfirst 0 (by simp) (Nat.succ_pos i)
      have hb : (e.id == m.id) = false := beq_eq_false_iff_ne.mpr (Ne.symm hm)
      have hi' : i < rest.length := by simpa using hi
      have hrest := ih i hi' hmatch
        (fun j hj hlt => hfirst (j + 1) (by simpa using hj) (by omega))
      simp [registerEntityMatchIndex, hb, hrest]

theorem registerEntityMatchIndex_some (e : DataEntity) (es : List DataEntity) (i : Nat)
    (h : registerEntityMatchIndex e es = some i) :
    ∃ hi : i < es.length, (es.get ⟨i, hi⟩).id = e.id := by
  induction es generalizing i with
  | nil => cases h
  | cons m rest ih =>
    by_cases hc : (e.id.truthy && e.id == m.id) = true
    · simp only [registerEntityMatchIndex, hc, if_true, Option.some.injEq] at h
      subst h
      have : e.id = m.id := beq_iff_eq.mp (Bool.and_elim_right hc)
      exact ⟨by simp, this.symm⟩
    · rcases hrec : registerEntityMatchIndex e rest with _ | i'
      · simp [registerEntityMatchIndex, hc, hrec] at h
      · simp [registerEntityMatchIndex, hc, hrec] at h
        obtain ⟨hlt, hmatch⟩ := ih i' hrec
        subst h
        exact ⟨by simpa using hlt, hmatch⟩

theorem registerEntityMatchIndex_none_no_match (e : DataEntity) (es : List DataEntity)
    (ht : e.id.truthy = true) (h : registerEntityMatchIndex e es = none) :
    ∀ m ∈ es, m.id ≠ e.id := by
  induction es with
  | nil => intro m hm; cases hm
  | cons m0 rest ih =>
    intro m hm
    by_cases hc : (e.id.truthy && e.id == m0.id) = true
    · simp [registerEntityMatchIndex, hc] at h
    · rcases hrec : registerEntityMatchIndex e rest with _ | i'
      · rcases List.mem_cons.mp hm with hrf | hrf
        · subst hrf
          intro hid
          exact hc (by simp [ht, beq_iff_eq.mpr hid.symm])
        · exact ih hrec m hrf
      · simp [registerEntityMatchIndex, hc, hrec] at h

/--
Counterexample for C6: the replacement guard of `DataCollection.registerEntity`
requires the new entity's id to be truthy.  With id `0` (falsy in JS), an
entity sharing an existing member's id is appended instead of replacing it,
leaving two members with the same id.
-/
theorem C6_registerEntity_counterexample :
    (DataCollection.registerEntity
        ⟨"t", false, [⟨"t", JsValue.vNum 0, [], []⟩], [10]⟩
        ⟨"t", JsValue.vNum 0, [("a", JsValue.vStr "x")], []⟩ 20).entities =
      [⟨"t", JsValue.vNum 0, [], []⟩, ⟨"t", JsValue.vNum 0, [("a", JsValue.vStr "x")], []⟩] ∧
    (⟨"t", JsValue.vNum 0, [], []⟩ : DataEntity).id =
      (⟨"t", JsValue.vNum 0, [("a", JsValue.vStr "x")], []⟩ : DataEntity).id ∧
    (⟨"t", JsValue.vNum 0, [], []⟩ : DataEntity) ≠
      ⟨"t", JsValue.vNum 0, [("a", JsValue.vStr "x")], []⟩ := by
  refine ⟨rfl, rfl, by decide⟩

/--
Claim C6 (amended): `registerEntity` replaces in place only when the new
entity's id is truthy; with a truthy id it replaces the first member carrying
an equal id (entity and observable, position preserved) and appends when no
member matches, preserving id-uniqueness; with a falsy id (0, empty string,
null, undefined) it always appends.
-/
theorem C6_registerEntity_amended (c : DataCollection) (e : DataEntity) (o : Nat) :
    (e.id.truthy = false →
      c.registerEntity e o =
        { c with
          entities := c.entities ++ [e]
          entitiesObservables := c.entitiesObservables ++ [o] }) ∧
    (e.id.truthy = true → (∀ m ∈ c.entities, m.id ≠ e.id) →
      c.registerEntity e o =
        { c with
          entities := c.entities ++ [e]
          entitiesObservables := c.entitiesObservables ++ [o] }) ∧
    (e.id.truthy = true →
      ∀ (i : Nat) (hi : i < c.entities.length), (c.entities.get ⟨i, hi⟩).id = e.id →
        (∀ (j : Nat) (hj : j < c.entities.length), j < i →
          (c.entities.get ⟨j, hj⟩).id ≠ e.id) →
        c.registerEntity e o =
          { c with
            entities := c.entities.set i e
            entitiesObservables := c.entitiesObservables.set i o }) ∧
    (e.id.truthy = true → (c.entities.map DataEntity.id).Nodup →
      ((c.registerEntity e o).entities.map DataEntity.id).Nodup) := by
  refine ⟨?_, ?_, ?_, ?_⟩
  · intro hf
    unfold DataCollection.registerEntity
    rw [registerEntityMatchIndex_none_of_falsy e c.entities hf]
  · intro _ hno
    unfold DataCollection.registerEntity
    rw [registerEntityMatchIndex_none_of_no_match e c.entities hno]
  · intro ht i hi hmatch hfirst
    unfold DataCollection.registerEntity
    rw [registerEntityMatchIndex_first e c.entities ht i hi hmatch hfirst]
  · intro ht hnd
    unfold DataCollection.registerEntity
    rcases hrec : registerEntityMatchIndex e c.entities with _ | i
    · have hno := registerEntityMatchIndex_none_no_match e c.entities ht hrec
      simp only [List.map_append, List.map_cons, List.map_nil]
      refine List.Nodup.append hnd (List.nodup_singleton e.id) ?_
      intro a ha hb
      rw [List.mem_singleton.mp hb] at ha
      obtain ⟨m, hm, hmid⟩ := List.mem_map.mp ha
      exact hno m hm hmid
    · obtain ⟨hi, hmatch⟩ := registerEntityMatchIndex_some e c.entities i hrec
      have hset : (c.entities.set i e).map DataEntity.id =
          (c.entities.map DataEntity.id).set i e.id := by
        simp [List.map_set]
      simp only [hset]
      have hval : (c.entities.map DataEntity.id)[i]? = some e.id := by
        rw [List.getElem?_map]
        rw [List.getElem?_eq_getElem hi]
        simp only [Option.map_some', Option.some.injEq]
        exact (List.get_eq_getElem c.entities ⟨i, hi⟩) ▸ hmatch
      rw [list_set_of_getElem_eq _ i e.id hval]
      exact hnd

/--
Witness for C6 (amended): registering an entity with truthy id 5 over a
one-member collection holding id 5 replaces the member and its observable
in place.
-/
theorem C6_registerEntity_amended_witness :
    (JsValue.vNum 5).truthy = true ∧
    DataCollection.registerEntity
        ⟨"x", false, [⟨"x", JsValue.vNum 5, [], []⟩], [10]⟩
        ⟨"x", JsValue.vNum 5, [("a", JsValue.vNum 1)], []⟩ 20 =
      ⟨"x", false, [⟨"x", JsValue.vNum 5, [("a", JsValue.vNum 1)], []⟩], [20]⟩ :=
  ⟨by decide,
    (C6_registerEntity_amended
        ⟨"x", false, [⟨"x", JsValue.vNum 5, [], []⟩], [10]⟩
        ⟨"x", JsValue.vNum 5, [("a", JsValue.vNum 1)], []⟩ 20).2.2.1
      (by decide) 0 (by decide) (by decide)
      (fun j hj hlt => absurd hlt (by omega))⟩

/- ───────────────────────── deleteEntity loop lemmas ───────────────────────── -/

theorem deleteEntityLoop_no_match (id : JsValue) (steps k : Nat)
    (es : List DataEntity) (obs : List Nat)
    (h : ∀ j, k ≤ j → ∀ e, es[j]? = some e → e.id ≠ id) :
    deleteEntityLoop id steps k (es, obs) = (es, obs) := by
  induction steps generalizing k with
  | zero => rfl
  | succ steps ih =>
    have hstep : deleteEntityStep id (es, obs) k = (es, obs) := by
      unfold deleteEntityStep
      rcases hk : es[k]? with _ | e
      · rfl
      · have hne : e.id ≠ id := h k (le_refl k) e hk
        simp [beq_eq_false_iff_ne.mpr hne]
    unfold deleteEntityLoop
    rw [hstep]
    exact ih (k + 1) (fun j hj e he => h j (by omega) e he)

theorem deleteEntityLoop_single_match (id : JsValue) (es : List DataEntity) (obs : List Nat)
    (i : Nat) (hi : i < es.length) (hmatch : (es.get ⟨i, hi⟩).id = id)
    (hothers : ∀ j e, es[j]? = some e → j ≠ i → e.id ≠ id) :
    ∀ (steps k : Nat), k ≤ i → es.length ≤ k + steps →
      deleteEntityLoop id steps k (es, obs) = (es.eraseIdx i, obs.eraseIdx i) := by
  intro steps
  induction steps generalizing es obs with
  | zero => intro k hk hlen; omega
  | succ steps ih =>
    intro k hk hlen
    by_cases hki : k = i
    · subst hki
      have hstep : deleteEntityStep id (es, obs) k = (es.eraseIdx k, obs.eraseIdx k) := by
        unfold deleteEntityStep
        have hk2 : es[k]? = some (es.get ⟨k, hi⟩) := by
          rw [List.getElem?_eq_getElem hi]
          simp [List.get_eq_getElem]
        rw [hk2]
        have hm : ((es.get ⟨k, hi⟩).id == id) = true := beq_iff_eq.mpr hmatch
        rw [List.get_eq_getElem] at hm
        simp [hm]
      unfold deleteEntityLoop
      rw [hstep]
      refine deleteEntityLoop_no_match id steps (k + 1) _ _ ?_
      intro j hj e he
      have hge : k ≤ j := by omega
      rw [getElem?_eraseIdx_of_le es k j hge] at he
      exact hothers (j + 1) e he (by omega)
    · have hklt : k < i := by omega
      have hstep : deleteEntityStep id (es, obs) k = (es, obs) := by
        unfold deleteEntityStep
        rcases hk2 : es[k]? with _ | e
        · rfl
        · have hne : e.id ≠ id := hothers k e hk2 hki
          simp [beq_eq_false_iff_ne.mpr hne]
      unfold deleteEntityLoop
      rw [hstep]
      exact ih es obs hi hmatch hothers (k + 1) (by omega) (by omega)

/--
Claim C10: on a collection with pairwise-distinct member ids,
`deleteEntity(id)` removes exactly the member carrying `id` together with the
observable at the same index (preserving the order of the rest), and is a
no-op when no member carries `id`.
-/
theorem C10_deleteEntity_correct (c : DataCollection) (id : JsValue)
    (hnd : (c.entities.map DataEntity.id).Nodup) :
    ((∀ m ∈ c.entities, m.id ≠ id) → c.deleteEntity id = c) ∧
    (∀ (i : Nat) (hi : i < c.entities.length), (c.entities.get ⟨i, hi⟩).id = id →
      (c.deleteEntity id).entities = c.entities.eraseIdx i ∧
      (c.deleteEntity id).entitiesObservables = c.entitiesObservables.eraseIdx i) := by
  constructor
  · intro hno
    unfold DataCollection.deleteEntity
    have hloop := deleteEntityLoop_no_match id c.entities.length 0
      c.entities c.entitiesObservables
      (fun j _ e he => hno e (by
        obtain ⟨hj, hej⟩ := List.getElem?_eq_some.mp he
        exact hej ▸ List.getElem_mem hj))
    rw [hloop]
  · intro i hi hmatch
    have hothers : ∀ j e, c.entities[j]? = some e → j ≠ i → e.id ≠ id := by
      intro j e he hne hid
      obtain ⟨hj, hej⟩ := List.getElem?_eq_some.mp he
      have hj2 : j < (List.map DataEntity.id c.entities).length := by
        rw [List.length_map]; exact hj
      have hi2 : i < (List.map DataEntity.id c.entities).length := by
        rw [List.length_map]; exact hi
      have hgj : (List.map DataEntity.id c.entities).get ⟨j, hj2⟩ = id := by
        simp [List.get_eq_getElem, List.getElem_map, hej, hid]
      have hgi : (List.map DataEntity.id c.entities).get ⟨i, hi2⟩ = id := by
        have hm := hmatch
        rw [List.get_eq_getElem] at hm
        simp [List.get_eq_getElem, List.getElem_map, hm]
      have hfin : (⟨j, hj2⟩ : Fin (List.map DataEntity.id c.entities).length) = ⟨i, hi2⟩ :=
        (List.Nodup.get_inj_iff hnd).mp (hgj.trans hgi.symm)
      exact hne (congrArg Fin.val hfin)
    have hloop := deleteEntityLoop_single_match id c.entities c.entitiesObservables
      i hi hmatch hothers c.entities.length 0 (by omega) (by omega)
    unfold DataCollection.deleteEntity
    rw [hloop]
    exact ⟨rfl, rfl⟩

/--
Witness for C10: deleting id 2 from a two-member collection with ids 1 and 2
removes the second member and its observable; deleting absent id 9 is a no-op.
-/
theorem C10_deleteEntity_correct_witness :
    (List.map DataEntity.id
        [⟨"x", JsValue.vNum 1, [], []⟩, ⟨"x", JsValue.vNum 2, [], []⟩]).Nodup ∧
    ((DataCollection.deleteEntity
        ⟨"x", false, [⟨"x", JsValue.vNum 1, [], []⟩, ⟨"x", JsValue.vNum 2, [], []⟩],
          [10, 20]⟩ (JsValue.vNum 2)).entities =
      ([⟨"x", JsValue.vNum 1, [], []⟩, ⟨"x", JsValue.vNum 2, [], []⟩] :
        List DataEntity).eraseIdx 1 ∧
    (DataCollection.deleteEntity
        ⟨"x", false, [⟨"x", JsValue.vNum 1, [], []⟩, ⟨"x", JsValue.vNum 2, [], []⟩],
          [10, 20]⟩ (JsValue.vNum 2)).entitiesObservables = [10, 20].eraseIdx 1) :=
  ⟨by decide,
    (C10_deleteEntity_correct
        ⟨"x", false, [⟨"x", JsValue.vNum 1, [], []⟩, ⟨"x", JsValue.vNum 2, [], []⟩],
          [10, 20]⟩ (JsValue.vNum 2) (by decide)).2 1 (by decide) (by decide)⟩

/- ───────────────────────── EntityStore (entity-store.class.ts) ───────────────────────── -/

/--
State of one `EntityStore` plus the heap of rxjs `ReplaySubject(1)` streams it
hands out.  `entitiesObservables` indexes stream identifiers by the JS
property key of the entity id; `buffers` maps a stream identifier to the
latest value pushed on it (`none` = nothing pushed yet); `nextStream`
generates fresh stream identifiers.
-/
structure EntityStoreState where
  entitiesObservables : List (String × Nat)
  buffers : List (Nat × Option DataEntity)
  nextStream : Nat
  deriving DecidableEq, Repr

/--
`EntityStore.registerEntity`: if the id is not the unpersisted sentinel `-1`
and a stream is indexed under it, push the entity on that stream and return
it; otherwise create a fresh 1-buffer replay stream, push the entity
immediately, and index it under the id unless the id is the sentinel.
-/
def EntityStoreState.registerEntity (σ : EntityStoreState) (entity : DataEntity)
    (id : JsValue) : Nat × EntityStoreState :=
  match (if id != JsValue.vNum (-1) then alookup σ.entitiesObservables (jsPropKey id)
         else none) with
  | some sid =>
      (sid, { σ with buffers := aset σ.buffers sid (some entity) })
  | none =>
      let sid := σ.nextStream
      ⟨sid,
        { entitiesObservables :=
            if id != JsValue.vNum (-1) then aset σ.entitiesObservables (jsPropKey id) sid
            else σ.entitiesObservables
          buffers := aset σ.buffers sid (some entity)
          nextStream := σ.nextStream + 1 }⟩

/--
`EntityStore.getEntityObservable`: return the indexed stream when present (and
creation is not forced), else create, index and return a fresh empty 1-buffer
replay stream.
-/
def EntityStoreState.getEntityObservable (σ : EntityStoreState) (id : JsValue)
    (createObservable : Bool) : Nat × EntityStoreState :=
  match alookup σ.entitiesObservables (jsPropKey id), createObservable with
  | some sid, false => (sid, σ)
  | _, _ =>
      let sid := σ.nextStream
      ⟨sid,
        { entitiesObservables := aset σ.entitiesObservables (jsPropKey id) sid
          buffers := aset σ.buffers sid none
          nextStream := σ.nextStream + 1 }⟩

/-- `EntityStore.unregister`: drop the indexed stream without terminating it. -/
def EntityStoreState.unregister (σ : EntityStoreState) (id : JsValue) : EntityStoreState :=
  { σ with entitiesObservables := adelete σ.entitiesObservables (jsPropKey id) }

/-- `EntityStore.isInStore`. -/
def EntityStoreState.isInStore (σ : EntityStoreState) (id : JsValue) : Bool :=
  (alookup σ.entitiesObservables (jsPropKey id)).isSome

theorem registerEntity_some_case (σ : EntityStoreState) (e : DataEntity) (id : JsValue)
    (sid : Nat) (hid : id ≠ JsValue.vNum (-1))
    (hsid : alookup σ.entitiesObservables (jsPropKey id) = some sid) :
    σ.registerEntity e id = (sid, { σ with buffers := aset σ.buffers sid (some e) }) := by
  unfold EntityStoreState.registerEntity
  rw [bne_iff_ne.mpr hid]
  simp only [if_true]
  rw [hsid]

theorem registerEntity_none_case (σ : EntityStoreState) (e : DataEntity) (id : JsValue)
    (hid : id ≠ JsValue.vNum (-1))
    (hnone : alookup σ.entitiesObservables (jsPropKey id) = none) :
    σ.registerEntity e id =
      (σ.nextStream,
        ⟨aset σ.entitiesObservables (jsPropKey id) σ.nextStream,
          aset σ.buffers σ.nextStream (some e), σ.nextStream + 1⟩) := by
  unfold EntityStoreState.registerEntity
  rw [bne_iff_ne.mpr hid]
  simp only [if_true]
  rw [hnone]

theorem registerEntity_sentinel_case (σ : EntityStoreState) (e : DataEntity) :
    σ.registerEntity e (JsValue.vNum (-1)) =
      (σ.nextStream,
        ⟨σ.entitiesObservables, aset σ.buffers σ.nextStream (some e),
          σ.nextStream + 1⟩) := by
  unfold EntityStoreState.registerEntity
  simp

theorem registerEntity_indexes (σ : EntityStoreState) (e : DataEntity) (id : JsValue)
    (hid : id ≠ JsValue.vNum (-1)) :
    alookup (σ.registerEntity e id).2.entitiesObservables (jsPropKey id) =
      some (σ.registerEntity e id).1 := by
  rcases hlook : alookup σ.entitiesObservables (jsPropKey id) with _ | sid
  · rw [registerEntity_none_case σ e id hid hlook]
    exact alookup_aset_self σ.entitiesObservables (jsPropKey id) σ.nextStream
  · rw [registerEntity_some_case σ e id sid hid hlook]
    exact hlook

/--
Claim C5: `registerEntity` pushes onto and returns the existing stream for a
non-sentinel id already in store; otherwise it creates a fresh 1-buffer
stream, pushes immediately, and indexes it only for non-sentinel ids;
consequently two registrations under the same non-sentinel id return the
same stream identifier and leave the second entity as the buffered value.
-/
theorem C5_registerEntity_correct (σ : EntityStoreState) (e1 e2 : DataEntity)
    (id : JsValue) (hid : id ≠ JsValue.vNum (-1)) :
    (∀ sid, alookup σ.entitiesObservables (jsPropKey id) = some sid →
      σ.registerEntity e1 id =
        (sid, { σ with buffers := aset σ.buffers sid (some e1) })) ∧
    (alookup σ.entitiesObservables (jsPropKey id) = none →
      σ.registerEntity e1 id =
        (σ.nextStream,
          ⟨aset σ.entitiesObservables (jsPropKey id) σ.nextStream,
            aset σ.buffers σ.nextStream (some e1), σ.nextStream + 1⟩)) ∧
    (σ.registerEntity e1 (JsValue.vNum (-1)) =
      (σ.nextStream,
        ⟨σ.entitiesObservables, aset σ.buffers σ.nextStream (some e1),
          σ.nextStream + 1⟩)) ∧
    (((σ.registerEntity e1 id).2.registerEntity e2 id).1 = (σ.registerEntity e1 id).1 ∧
      alookup ((σ.registerEntity e1 id).2.registerEntity e2 id).2.buffers
        ((σ.registerEntity e1 id).2.registerEntity e2 id).1 = some (some e2)) := by
  refine ⟨fun sid hsid => registerEntity_some_case σ e1 id sid hid hsid,
    fun hnone => registerEntity_none_case σ e1 id hid hnone,
    registerEntity_sentinel_case σ e1, ?_⟩
  have hidx := registerEntity_indexes σ e1 id hid
  have hsecond := registerEntity_some_case (σ.registerEntity e1 id).2 e2 id
    (σ.registerEntity e1 id).1 hid hidx
  rw [hsecond]
  exact ⟨rfl, alookup_aset_self _ _ _⟩

/--
Witness for C5: two registrations of different entities under id 9 on the
empty store return stream 0 both times, whose buffered value ends as the
second entity.
-/
theorem C5_registerEntity_correct_witness :
    (JsValue.vNum 9 ≠ JsValue.vNum (-1)) ∧
    (let σ0 : EntityStoreState := ⟨[], [], 0⟩
     let ea : DataEntity := ⟨"t", JsValue.vNum 9, [], []⟩
     let eb : DataEntity := ⟨"t", JsValue.vNum 9, [("a", JsValue.vNum 2)], []⟩
     ((σ0.registerEntity ea (JsValue.vNum 9)).2.registerEntity eb (JsValue.vNum 9)).1 =
        (σ0.registerEntity ea (JsValue.vNum 9)).1 ∧
      alookup ((σ0.registerEntity ea (JsValue.vNum 9)).2.registerEntity eb
          (JsValue.vNum 9)).2.buffers
        ((σ0.registerEntity ea (JsValue.vNum 9)).2.registerEntity eb (JsValue.vNum 9)).1 =
        some (some eb)) :=
  ⟨by decide,
    (C5_registerEntity_correct ⟨[], [], 0⟩ ⟨"t", JsValue.vNum 9, [], []⟩
      ⟨"t", JsValue.vNum 9, [("a", JsValue.vNum 2)], []⟩ (JsValue.vNum 9)
      (by decide)).2.2.2⟩

/- ───────────────────────── CollectionStore (collection-store.class.ts) ───────────────────────── -/

/--
State of one `CollectionStore`: three parallel maps keyed by filter hash
(`ObjectHash` is kept abstract as a hash function parameter where needed).
Collection streams are numeric identifiers; emissions (`subject.next`) are
returned as explicit `(stream id, collection)` event lists.
-/
structure CollectionStore where
  collectionObservables : List (String × Nat)
  filters : List (String × FilterData)
  collections : List (String × DataCollection)
  deriving DecidableEq, Repr

/--
`CollectionStore.entityMatchFilter`: the loop returns false at the first
filter key whose value is defined in the entity's attributes and differs;
expressed as `all` over the filter keys.
-/
def entityMatchFilter (entity : DataEntity) (filter : FilterData) : Bool :=
  (omKeys filter).all (fun key =>
    !(omGet entity.attributes key != JsValue.vUndefined &&
      omGet filter key != omGet entity.attributes key))

/--
Placeholder collection used to totalise map lookups that cannot miss in a
well-formed store (the source would throw on such a miss).
-/
def dfltCollection : DataCollection := ⟨"", false, [], []⟩

/--
The `forEach` over `Object.keys(this.collections)` in
`CollectionStore.registerEntityInCollections`: each stored collection whose
filter the entity matches is updated in place via
`DataCollection.registerEntity` and, when refreshing, its subject emits the
updated collection.
-/
def registerEntityInCollectionsLoop (entity : DataEntity) (obs : Nat) (refresh : Bool)
    (filters : List (String × FilterData)) (obsMap : List (String × Nat)) :
    List String → List (String × DataCollection) →
      List (String × DataCollection) × List (Nat × DataCollection)
  | [], colls => (colls, [])
  | key :: rest, colls =>
      if entityMatchFilter entity ((alookup filters key).getD []) then
        let coll' := ((alookup colls key).getD dfltCollection).registerEntity entity obs
        let r := registerEntityInCollectionsLoop entity obs refresh filters obsMap rest
          (aset colls key coll')
        (r.1, (if refresh then [((alookup obsMap key).getD 0, coll')] else []) ++ r.2)
      else registerEntityInCollectionsLoop entity obs refresh filters obsMap rest colls

/-- `CollectionStore.registerEntityInCollections`. -/
def CollectionStore.registerEntityInCollections (s : CollectionStore) (entity : DataEntity)
    (entityObservable : Nat) (refreshCollection : Bool) :
    CollectionStore × List (Nat × DataCollection) :=
  let r := registerEntityInCollectionsLoop entity entityObservable refreshCollection
    s.filters s.collectionObservables (s.collections.map Prod.fst) s.collections
  ({ s with collections := r.1 }, r.2)

/--
`CollectionStore.clearEntities`: truncate (`entities.length = 0`) the
collection stored under the filter's hash, if any.  No subject emits, hence
the empty event list.
-/
def CollectionStore.clearEntities (hashF : FilterData → String) (s : CollectionStore)
    (filter : FilterData) : CollectionStore × List (Nat × DataCollection) :=
  let hash := hashF filter
  match alookup s.collections hash with
  | some coll =>
      ({ s with collections := aset s.collections hash { coll with entities := [] } }, [])
  | none => (s, [])

/-- `CollectionStore.unregister`: drop collection, stream and filter record. -/
def CollectionStore.unregister (hashF : FilterData → String) (s : CollectionStore)
    (filter : FilterData) : CollectionStore :=
  { collectionObservables := adelete s.collectionObservables (hashF filter)
    filters := adelete s.filters (hashF filter)
    collections := adelete s.collections (hashF filter) }

/-- `CollectionStore.isInStore`: true only for a materialized collection. -/
def CollectionStore.isInStore (hashF : FilterData → String) (s : CollectionStore)
    (filter : FilterData) : Bool :=
  (alookup s.collections (hashF filter)).isSome

/--
Well-formedness maintained by the store: hash keys are unambiguous and
distinct hash keys own distinct subjects.
-/
def CollectionStore.storeWF (s : CollectionStore) : Prop :=
  (s.collections.map Prod.fst).Nodup ∧
  (s.collections.map Prod.fst).Pairwise
    (fun k1 k2 =>
      (alookup s.collectionObservables k1).getD 0 ≠
        (alookup s.collectionObservables k2).getD 0)

instance (s : CollectionStore) : Decidable s.storeWF := by
  unfold CollectionStore.storeWF
  exact instDecidableAnd

theorem mem_of_alookup_eq_some {α β : Type} [DecidableEq α] (m : List (α × β)) (k : α)
    (v : β) (h : alookup m k = some v) : (k, v) ∈ m := by
  induction m with
  | nil => cases h
  | cons p rest ih =>
    obtain ⟨k0, v0⟩ := p
    by_cases hk : k0 = k
    · subst hk
      simp only [alookup, if_true, Option.some.injEq] at h
      subst h
      exact List.mem_cons_self _ _
    · simp only [alookup, hk, if_false] at h
      exact List.mem_cons_of_mem _ (ih h)

theorem mem_set_self {α : Type} (l : List α) (i : Nat) (a : α) (h : i < l.length) :
    a ∈ l.set i a := by
  induction l generalizing i with
  | nil => simp at h
  | cons x t ih =>
    cases i with
    | zero => simp [List.set]
    | succ i =>
      simp only [List.set, List.mem_cons]
      exact Or.inr (ih i (by simpa using h))

theorem matchClause_iff (a b : JsValue) :
    (!(a != JsValue.vUndefined && b != a)) = true ↔ (a ≠ JsValue.vUndefined → b = a) := by
  by_cases h1 : a = JsValue.vUndefined <;> by_cases h2 : b = a <;> simp [h1, h2]

theorem entityMatchFilter_iff (e : DataEntity) (f : FilterData) :
    entityMatchFilter e f = true ↔
      ∀ k ∈ omKeys f, omGet e.attributes k ≠ JsValue.vUndefined →
        omGet f k = omGet e.attributes k := by
  unfold entityMatchFilter
  rw [List.all_eq_true]
  constructor
  · intro h k hk
    exact (matchClause_iff (omGet e.attributes k) (omGet f k)).mp (h k hk)
  · intro h k hk
    exact (matchClause_iff (omGet e.attributes k) (omGet f k)).mpr (h k hk)

theorem mem_registerEntity_self (c : DataCollection) (e : DataEntity) (o : Nat) :
    e ∈ (c.registerEntity e o).entities := by
  unfold DataCollection.registerEntity
  rcases h : registerEntityMatchIndex e c.entities with _ | i
  · simp
  · obtain ⟨hi, _⟩ := registerEntityMatchIndex_some e c.entities i h
    simp only
    exact mem_set_self c.entities i e hi

theorem reicLoop_spec (entity : DataEntity) (obs : Nat)
    (filters : List (String × FilterData)) (obsMap : List (String × Nat)) :
    ∀ (ks : List String) (colls : List (String × DataCollection)), ks.Nodup →
      (∀ key, key ∉ ks →
        alookup (registerEntityInCollectionsLoop entity obs true filters obsMap ks colls).1
            key = alookup colls key) ∧
      (∀ key ∈ ks,
        (entityMatchFilter entity ((alookup filters key).getD []) = true →
          alookup
              (registerEntityInCollectionsLoop entity obs true filters obsMap ks colls).1
              key =
            some (((alookup colls key).getD dfltCollection).registerEntity entity obs) ∧
          ((alookup obsMap key).getD 0,
              ((alookup colls key).getD dfltCollection).registerEntity entity obs) ∈
            (registerEntityInCollectionsLoop entity obs true filters obsMap ks colls).2) ∧
        (entityMatchFilter entity ((alookup filters key).getD []) = false →
          alookup
              (registerEntityInCollectionsLoop entity obs true filters obsMap ks colls).1
              key = alookup colls key)) ∧
      (∀ ev ∈ (registerEntityInCollectionsLoop entity obs true filters obsMap ks colls).2,
        ∃ key, key ∈ ks ∧
          entityMatchFilter entity ((alookup filters key).getD []) = true ∧
          ev = ((alookup obsMap key).getD 0,
            ((alookup colls key).getD dfltCollection).registerEntity entity obs)) := by
  intro ks
  induction ks with
  | nil =>
    intro colls _
    refine ⟨fun key _ => rfl, fun key hk => absurd hk (List.not_mem_nil key),
      fun ev hev => absurd hev (List.not_mem_nil ev)⟩
  | cons key0 rest ih =>
    intro colls hnd
    rcases List.nodup_cons.mp hnd with ⟨hk0, hndr⟩
    by_cases hm : entityMatchFilter entity ((alookup filters key0).getD []) = true
    · obtain ⟨ih1, ih2, ih3⟩ := ih
        (aset colls key0 (((alookup colls key0).getD dfltCollection).registerEntity entity obs))
        hndr
      have hstep1 :
          (registerEntityInCollectionsLoop entity obs true filters obsMap (key0 :: rest)
              colls).1 =
            (registerEntityInCollectionsLoop entity obs true filters obsMap rest
              (aset colls key0
                (((alookup colls key0).getD dfltCollection).registerEntity entity obs))).1 := by
        simp [registerEntityInCollectionsLoop, hm]
      have hstep2 :
          (registerEntityInCollectionsLoop entity obs true filters obsMap (key0 :: rest)
              colls).2 =
            ((alookup obsMap key0).getD 0,
                ((alookup colls key0).getD dfltCollection).registerEntity entity obs) ::
              (registerEntityInCollectionsLoop entity obs true filters obsMap rest
                (aset colls key0
                  (((alookup colls key0).getD dfltCollection).registerEntity entity
                    obs))).2 := by
        simp [registerEntityInCollectionsLoop, hm]
      refine ⟨?_, ?_, ?_⟩
      · intro key hknot
        have hkne : key ≠ key0 := fun h => hknot (h ▸ List.mem_cons_self key0 rest)
        have hkrest : key ∉ rest := fun h => hknot (List.mem_cons_of_mem key0 h)
        rw [hstep1, ih1 key hkrest]
        exact alookup_aset_ne colls key0 key _ hkne
      · intro key hkmem
        rcases List.mem_cons.mp hkmem with hkeq | hkrest
        · subst hkeq
          refine ⟨fun _ => ⟨?_, ?_⟩, fun hfalse => absurd hm (by simp [hfalse])⟩
          · rw [hstep1, ih1 key hk0]
            exact alookup_aset_self colls key _
          · rw [hstep2]
            exact List.mem_cons_self _ _
        · have hkne : key ≠ key0 := fun h => hk0 (h ▸ hkrest)
          have hsame : alookup
              (aset colls key0
                (((alookup colls key0).getD dfltCollection).registerEntity entity obs))
              key = alookup colls key :=
            alookup_aset_ne colls key0 key _ hkne
          obtain ⟨ihta, ihtb⟩ := ih2 key hkrest
          refine ⟨fun htrue => ?_, fun hfalse => ?_⟩
          · obtain ⟨hA, hB⟩ := ihta htrue
            rw [hsame] at hA hB
            refine ⟨by rw [hstep1]; exact hA, by rw [hstep2]; exact List.mem_cons_of_mem _ hB⟩
          · rw [hstep1, ihtb hfalse, hsame]
      · intro ev hev
        rw [hstep2] at hev
        rcases List.mem_cons.mp hev with hev0 | hevr
        · exact ⟨key0, List.mem_cons_self key0 rest, hm, hev0⟩
        · obtain ⟨key, hkrest, hkm, hkval⟩ := ih3 ev hevr
          have hkne : key ≠ key0 := fun h => hk0 (h ▸ hkrest)
          have hsame : alookup
              (aset colls key0
                (((alookup colls key0).getD dfltCollection).registerEntity entity obs))
              key = alookup colls key :=
            alookup_aset_ne colls key0 key _ hkne
          rw [hsame] at hkval
          exact ⟨key, List.mem_cons_of_mem key0 hkrest, hkm, hkval⟩
    · have hmf : entityMatchFilter entity ((alookup filters key0).getD []) = false := by
        simpa using hm
      obtain ⟨ih1, ih2, ih3⟩ := ih colls hndr
      have hstep :
          registerEntityInCollectionsLoop entity obs true filters obsMap (key0 :: rest)
              colls =
            registerEntityInCollectionsLoop entity obs true filters obsMap rest colls := by
        simp [registerEntityInCollectionsLoop, hmf]
      refine ⟨?_, ?_, ?_⟩
      · intro key hknot
        have hkrest : key ∉ rest := fun h => hknot (List.mem_cons_of_mem key0 h)
        rw [hstep]
        exact ih1 key hkrest
      · intro key hkmem
        rcases List.mem_cons.mp hkmem with hkeq | hkrest
        · subst hkeq
          refine ⟨fun htrue => absurd htrue (by simp [hmf]), fun _ => ?_⟩
          rw [hstep]
          exact ih1 key hk0
        · rw [hstep]
          exact ih2 key hkrest
      · intro ev hev
        rw [hstep] at hev
        obtain ⟨key, hkrest, hkm, hkval⟩ := ih3 ev hev
        exact ⟨key, List.mem_cons_of_mem key0 hkrest, hkm, hkval⟩

/--
Claim C3: `registerEntityInCollections(entity, obs)` updates (insert or
replace via `DataCollection.registerEntity`) every stored collection whose
filter the entity matches and emits the updated collection on that filter's
stream; non-matching collections are untouched and their streams do not emit;
matching holds exactly when every filter key defined in the entity's
attributes carries the filter's value.
-/
theorem C3_registerEntityInCollections_correct (s : CollectionStore) (e : DataEntity)
    (o : Nat) (hwf : s.storeWF) :
    ((s.registerEntityInCollections e o true).1.filters = s.filters) ∧
    ((s.registerEntityInCollections e o true).1.collectionObservables =
      s.collectionObservables) ∧
    (∀ key coll, alookup s.collections key = some coll →
      (entityMatchFilter e ((alookup s.filters key).getD []) = true →
        alookup (s.registerEntityInCollections e o true).1.collections key =
          some (coll.registerEntity e o) ∧
        e ∈ (coll.registerEntity e o).entities ∧
        ((alookup s.collectionObservables key).getD 0, coll.registerEntity e o) ∈
          (s.registerEntityInCollections e o true).2) ∧
      (entityMatchFilter e ((alookup s.filters key).getD []) = false →
        alookup (s.registerEntityInCollections e o true).1.collections key = some coll ∧
        ∀ ev ∈ (s.registerEntityInCollections e o true).2,
          ev.1 ≠ (alookup s.collectionObservables key).getD 0)) ∧
    (∀ f, entityMatchFilter e f = true ↔
      ∀ k ∈ omKeys f, omGet e.attributes k ≠ JsValue.vUndefined →
        omGet f k = omGet e.attributes k) := by
  obtain ⟨hnd, hpw⟩ := hwf
  obtain ⟨hl1, hl2, hl3⟩ := reicLoop_spec e o s.filters s.collectionObservables
    (s.collections.map Prod.fst) s.collections hnd
  have hc : (registerEntityInCollectionsLoop e o true s.filters s.collectionObservables
      (List.map Prod.fst s.collections) s.collections).1 =
      (s.registerEntityInCollections e o true).1.collections := rfl
  have hv : (registerEntityInCollectionsLoop e o true s.filters s.collectionObservables
      (List.map Prod.fst s.collections) s.collections).2 =
      (s.registerEntityInCollections e o true).2 := rfl
  rw [hc, hv] at hl2
  rw [hv] at hl3
  refine ⟨rfl, rfl, ?_, entityMatchFilter_iff e⟩
  intro key coll hcoll
  have hkmem : key ∈ s.collections.map Prod.fst :=
    List.mem_map.mpr ⟨(key, coll), mem_of_alookup_eq_some s.collections key coll hcoll, rfl⟩
  obtain ⟨h2a, h2b⟩ := hl2 key hkmem
  constructor
  · intro htrue
    obtain ⟨hA, hB⟩ := h2a htrue
    rw [hcoll] at hA hB
    simp only [Option.getD_some] at hA hB
    exact ⟨hA, mem_registerEntity_self coll e o, hB⟩
  · intro hfalse
    refine ⟨by rw [h2b hfalse, hcoll], ?_⟩
    intro ev hev heq
    obtain ⟨key', hk'mem, hk'match, hk'val⟩ := hl3 ev hev
    by_cases hkk : key' = key
    · subst hkk
      rw [hk'match] at hfalse
      cases hfalse
    · have hobsne : (alookup s.collectionObservables key').getD 0 ≠
          (alookup s.collectionObservables key).getD 0 := by
        refine List.Pairwise.forall ?_ hpw hk'mem hkmem hkk
        intro a b hab
        exact Ne.symm hab
      rw [hk'val] at heq
      exact hobsne heq

/--
Witness for C3: a store holding one materialized collection under filter
`{status: "open"}` with stream 7; registering an entity with
`status == "open"` updates that collection and emits it on stream 7.
-/
theorem C3_registerEntityInCollections_correct_witness :
    (CollectionStore.storeWF
      ⟨[("h1", 7)], [("h1", [("status", JsValue.vStr "open")])],
        [("h1", ⟨"articles", false, [], []⟩)]⟩) ∧
    (let s0 : CollectionStore :=
      ⟨[("h1", 7)], [("h1", [("status", JsValue.vStr "open")])],
        [("h1", ⟨"articles", false, [], []⟩)]⟩
     let e1 : DataEntity :=
      ⟨"articles", JsValue.vNum 3, [("status", JsValue.vStr "open")], []⟩
     ((s0.registerEntityInCollections e1 9 true).1.filters = s0.filters) ∧
     ((s0.registerEntityInCollections e1 9 true).1.collectionObservables =
       s0.collectionObservables) ∧
     (∀ key coll, alookup s0.collections key = some coll →
       (entityMatchFilter e1 ((alookup s0.filters key).getD []) = true →
         alookup (s0.registerEntityInCollections e1 9 true).1.collections key =
           some (coll.registerEntity e1 9) ∧
         e1 ∈ (coll.registerEntity e1 9).entities ∧
         ((alookup s0.collectionObservables key).getD 0, coll.registerEntity e1 9) ∈
           (s0.registerEntityInCollections e1 9 true).2) ∧
       (entityMatchFilter e1 ((alookup s0.filters key).getD []) = false →
         alookup (s0.registerEntityInCollections e1 9 true).1.collections key =
           some coll ∧
         ∀ ev ∈ (s0.registerEntityInCollections e1 9 true).2,
           ev.1 ≠ (alookup s0.collectionObservables key).getD 0)) ∧
     (∀ f, entityMatchFilter e1 f = true ↔
       ∀ k ∈ omKeys f, omGet e1.attributes k ≠ JsValue.vUndefined →
         omGet f k = omGet e1.attributes k)) :=
  ⟨by decide,
    C3_registerEntityInCollections_correct
      ⟨[("h1", 7)], [("h1", [("status", JsValue.vStr "open")])],
        [("h1", ⟨"articles", false, [], []⟩)]⟩
      ⟨"articles", JsValue.vNum 3, [("status", JsValue.vStr "open")], []⟩ 9
      (by decide)⟩

/--
Claim C9: `clearEntities(filter)` empties the entities array of the
materialized collection under that filter's hash, leaves its
`entitiesObservables` untouched, emits nothing, and leaves filter records,
streams and other hash entries unchanged; afterwards the two parallel arrays
of a previously non-empty collection have different lengths.
-/
theorem C9_clearEntities_correct (hashF : FilterData → String) (s : CollectionStore)
    (filter : FilterData) (coll : DataCollection)
    (hcoll : alookup s.collections (hashF filter) = some coll) :
    ((s.clearEntities hashF filter).2 = []) ∧
    ((s.clearEntities hashF filter).1.filters = s.filters) ∧
    ((s.clearEntities hashF filter).1.collectionObservables = s.collectionObservables) ∧
    (alookup (s.clearEntities hashF filter).1.collections (hashF filter) =
      some { coll with entities := [] }) ∧
    (∀ h', h' ≠ hashF filter →
      alookup (s.clearEntities hashF filter).1.collections h' =
        alookup s.collections h') ∧
    (coll.entities ≠ [] → coll.entities.length = coll.entitiesObservables.length →
      ({ coll with entities := ([] : List DataEntity) }).entities.length ≠
        ({ coll with entities := ([] : List DataEntity) }).entitiesObservables.length) := by
  have hstep : s.clearEntities hashF filter =
      ({ s with
          collections := aset s.collections (hashF filter) { coll with entities := [] } },
        []) := by
    show (match alookup s.collections (hashF filter) with
      | some coll =>
          ({ s with
              collections := aset s.collections (hashF filter) { coll with entities := [] } },
            ([] : List (Nat × DataCollection)))
      | none => (s, [])) = _
    rw [hcoll]
  rw [hstep]
  refine ⟨rfl, rfl, rfl, ?_, ?_, ?_⟩
  · exact alookup_aset_self s.collections (hashF filter) _
  · intro h' hne
    exact alookup_aset_ne s.collections (hashF filter) h' _ hne
  · intro hne hlen
    simp only [List.length_nil]
    intro h0
    have hz : coll.entities.length ≠ 0 := fun h => hne (List.length_eq_zero.mp h)
    omega

/--
Witness for C9: clearing the filter whose hash holds a one-entity collection
empties it while its single observable stays, leaving arrays of lengths 0
and 1.
-/
theorem C9_clearEntities_correct_witness :
    (alookup
        (CollectionStore.collections
          ⟨[("h", 3)], [("h", [("a", JsValue.vNum 1)])],
            [("h", ⟨"t", false, [⟨"t", JsValue.vNum 1, [], []⟩], [4]⟩)]⟩)
        ((fun _ => "h") ([("a", JsValue.vNum 1)] : FilterData)) =
      some ⟨"t", false, [⟨"t", JsValue.vNum 1, [], []⟩], [4]⟩) ∧
    (let s0 : CollectionStore :=
      ⟨[("h", 3)], [("h", [("a", JsValue.vNum 1)])],
        [("h", ⟨"t", false, [⟨"t", JsValue.vNum 1, [], []⟩], [4]⟩)]⟩
     let coll : DataCollection := ⟨"t", false, [⟨"t", JsValue.vNum 1, [], []⟩], [4]⟩
     let hashF : FilterData → String := fun _ => "h"
     let filter : FilterData := [("a", JsValue.vNum 1)]
     ((s0.clearEntities hashF filter).2 = []) ∧
     ((s0.clearEntities hashF filter).1.filters = s0.filters) ∧
     ((s0.clearEntities hashF filter).1.collectionObservables =
       s0.collectionObservables) ∧
     (alookup (s0.clearEntities hashF filter).1.collections (hashF filter) =
       some { coll with entities := [] }) ∧
     (∀ h', h' ≠ hashF filter →
       alookup (s0.clearEntities hashF filter).1.collections h' =
         alookup s0.collections h') ∧
     (coll.entities ≠ [] → coll.entities.length = coll.entitiesObservables.length →
       ({ coll with entities := ([] : List DataEntity) }).entities.length ≠
         ({ coll with entities := ([] : List DataEntity) }).entitiesObservables.length)) :=
  ⟨by decide,
    C9_clearEntities_correct (fun _ => "h")
      ⟨[("h", 3)], [("h", [("a", JsValue.vNum 1)])],
        [("h", ⟨"t", false, [⟨"t", JsValue.vNum 1, [], []⟩], [4]⟩)]⟩
      [("a", JsValue.vNum 1)] ⟨"t", false, [⟨"t", JsValue.vNum 1, [], []⟩], [4]⟩
      (by decide)⟩

/- ───────────────────────── DataConnector (data-connector.class.ts) ───────────────────────── -/

/-- Connector configuration fields relevant to the retry policy. -/
structure DataConnectorConfig where
  retryTimeout : Option Int
  maxRetry : Option Int
  deriving DecidableEq, Repr

/-- JS `x || d` for an optional numeric configuration value (0 is falsy). -/
def jsNumOr (v : Option Int) (dflt : Int) : Int :=
  match v with
  | some n => if n = 0 then dflt else n
  | none => dflt

/-- Connector retry state resolved by the `DataConnector` constructor. -/
structure DataConnector where
  retryTimeout : Int
  maxRetry : Int
  deriving DecidableEq, Repr

/--
The `DataConnector` constructor: `retryTimeout = config.retryTimeout || 50000`,
`maxRetry = config.maxRetry || 5`.
-/
def mkDataConnector (configuration : DataConnectorConfig) : DataConnector :=
  { retryTimeout := jsNumOr configuration.retryTimeout 50000
    maxRetry := jsNumOr configuration.maxRetry 5 }

/-- `DataConnector.getRetryTimeout`. -/
def DataConnector.getRetryTimeout (c : DataConnector) (type : String) : Int :=
  c.retryTimeout

/--
`DataConnector.getMaxRetry`, transcribed as written in the source
(`return this.retryTimeout;` — it does not read `this.maxRetry`).
-/
def DataConnector.getMaxRetry (c : DataConnector) (type : String) : Int :=
  c.retryTimeout

/-- Outcome of one transport attempt, as reported to the per-attempt error callback. -/
inductive TransportResponse where
  | success : TransportResponse
  | failure (code : Int) : TransportResponse
  deriving DecidableEq, Repr

/-- Result of running an operation's retry loop to completion. -/
inductive RunOutcome where
  | succeeded (transportCalls : Nat) : RunOutcome
  | errored (code : Int) (transportCalls : Nat) : RunOutcome
  | outOfFuel : RunOutcome
  deriving DecidableEq, Repr

/--
The shared retry loop of every connector operation (`loadEntity`,
`loadCollection`, `paginatedLoadCollection`, `saveEntity`, `createEntity`,
`deleteEntity`): attempt number `count` starts at 0; a transient failure
(code ≤ 0) re-issues the transport call after the delay while
`count < maxRetryValue || maxRetryValue === -1`, incrementing `count`;
otherwise the outward stream errors.  `fuel` bounds the simulation so the
function is total; an unlimited loop on an always-failing transport exhausts
any fuel.
-/
def runRetryLoop (maxRetryValue : Int) (responses : Nat → TransportResponse) :
    Nat → Nat → RunOutcome
  | 0, _ => .outOfFuel
  | fuel + 1, count =>
      match responses count with
      | .success => .succeeded (count + 1)
      | .failure code =>
          if code > 0 then .errored code (count + 1)
          else if (count : Int) < maxRetryValue ∨ maxRetryValue = -1 then
            runRetryLoop maxRetryValue responses fuel (count + 1)
          else .errored code (count + 1)

/--
Claim C1 (code bug): the retry loops cap the attempt counter with
`getMaxRetry`, but `getMaxRetry` returns `this.retryTimeout` instead of
`this.maxRetry` (the field documented "Max attempts number" is never read).
With `{retryTimeout: 2, maxRetry: -1}` the spec demands unlimited retries,
yet the loop errors out after exactly 2 retries (3 transport calls); honoring
`maxRetry = -1` would retry forever (exhausting any fuel).
-/
theorem C1_getMaxRetry_code_bug :
    (mkDataConnector ⟨some 2, some (-1)⟩).maxRetry = -1 ∧
    (mkDataConnector ⟨some 2, some (-1)⟩).getMaxRetry "articles" = 2 ∧
    runRetryLoop ((mkDataConnector ⟨some 2, some (-1)⟩).getMaxRetry "articles")
      (fun _ => .failure 0) 10 0 = .errored 0 3 ∧
    runRetryLoop ((mkDataConnector ⟨some 2, some (-1)⟩).maxRetry)
      (fun _ => .failure 0) 10 0 = .outOfFuel := by
  refine ⟨rfl, rfl, by decide, by decide⟩

/--
Effect of one invocation of an operation's `errorHandler` closure: whether the
outward subject errored, which entity-store id / collection-store filter got
unregistered, whether a retry was scheduled, and the attempt counter after
the call.
-/
structure HandlerEffect where
  erroredStream : Bool
  evictedEntityId : Option JsValue
  evictedFilter : Option FilterData
  scheduledRetry : Bool
  count : Nat
  deriving DecidableEq, Repr

/-- `loadEntity`'s `errorHandler` (terminal branch evicts the entity id). -/
def loadEntityErrorStep (maxRetryValue : Int) (id : JsValue) (count : Nat)
    (code : Int) : HandlerEffect :=
  if code > 0 then ⟨true, some id, none, false, count⟩
  else if (count : Int) < maxRetryValue ∨ maxRetryValue = -1 then
    ⟨false, none, none, true, count + 1⟩
  else ⟨true, some id, none, false, count⟩

/-- `loadCollection`'s `errorHandler` (terminal branch evicts the filter entry). -/
def loadCollectionErrorStep (maxRetryValue : Int) (filter : FilterData) (count : Nat)
    (code : Int) : HandlerEffect :=
  if code > 0 then ⟨true, none, some filter, false, count⟩
  else if (count : Int) < maxRetryValue ∨ maxRetryValue = -1 then
    ⟨false, none, none, true, count + 1⟩
  else ⟨true, none, some filter, false, count⟩

/-- `paginatedLoadCollectionExec`'s `errorHandler`. -/
def paginatedLoadCollectionErrorStep (maxRetryValue : Int) (filter : FilterData)
    (count : Nat) (code : Int) : HandlerEffect :=
  if code > 0 then ⟨true, none, some filter, false, count⟩
  else if (count : Int) < maxRetryValue ∨ maxRetryValue = -1 then
    ⟨false, none, none, true, count + 1⟩
  else ⟨true, none, some filter, false, count⟩

/-- `saveEntity`'s `errorHandler`. -/
def saveEntityErrorStep (maxRetryValue : Int) (id : JsValue) (count : Nat)
    (code : Int) : HandlerEffect :=
  if code > 0 then ⟨true, some id, none, false, count⟩
  else if (count : Int) < maxRetryValue ∨ maxRetryValue = -1 then
    ⟨false, none, none, true, count + 1⟩
  else ⟨true, some id, none, false, count⟩

/-- `deleteEntity`'s `errorHandler`. -/
def deleteEntityErrorStep (maxRetryValue : Int) (id : JsValue) (count : Nat)
    (code : Int) : HandlerEffect :=
  if code > 0 then ⟨true, some id, none, false, count⟩
  else if (count : Int) < maxRetryValue ∨ maxRetryValue = -1 then
    ⟨false, none, none, true, count + 1⟩
  else ⟨true, some id, none, false, count⟩

/-- `createEntity`'s `errorHandler` (no store entry exists yet, so none is evicted). -/
def createEntityErrorStep (maxRetryValue : Int) (count : Nat) (code : Int) :
    HandlerEffect :=
  if code > 0 then ⟨true, none, none, false, count⟩
  else if (count : Int) < maxRetryValue ∨ maxRetryValue = -1 then
    ⟨false, none, none, true, count + 1⟩
  else ⟨true, none, none, false, count⟩

/-- What the head of `loadEntity` does before any transport call. -/
inductive LoadEntityStart where
  | cachedReturn (streamId : Nat) (σ : EntityStoreState) : LoadEntityStart
  | fetch : LoadEntityStart
  deriving DecidableEq, Repr

/--
The cache check at the top of `loadEntity`: with caching enabled and an
existing endpoint store, `getEntityObservableInStore` always returns a
subject (`getEntityObservable` creates and indexes an empty one on a miss),
which is truthy, so `loadEntity` returns it without calling the transport;
only a missing store or disabled cache falls through to a fetch.
-/
def loadEntityStart (useCacheFlag : Bool) (store : Option EntityStoreState)
    (id : JsValue) : LoadEntityStart :=
  match useCacheFlag, store with
  | true, some σ =>
      let r := σ.getEntityObservable id false
      .cachedReturn r.1 r.2
  | true, none => .fetch
  | false, _ => .fetch

/--
Counterexample for C2: after a terminal error (code 5) on `saveEntity` evicts
entity id 5, a later cache-enabled `loadEntity` does NOT re-fetch — the store
auto-creates a fresh empty replay stream and `loadEntity` returns it without
any transport call — contradicting the claim that the eviction makes a later
lookup re-fetch.
-/
theorem C2_terminal_error_counterexample :
    (saveEntityErrorStep 5 (JsValue.vNum 5) 0 5 =
      ⟨true, some (JsValue.vNum 5), none, false, 0⟩) ∧
    (let σpre : EntityStoreState :=
      ⟨[("5", 0)], [(0, some ⟨"t", JsValue.vNum 5, [], []⟩)], 1⟩
     let σpost := σpre.unregister (JsValue.vNum 5)
     loadEntityStart true (some σpost) (JsValue.vNum 5) =
        .cachedReturn 1
          ⟨[("5", 1)], [(0, some ⟨"t", JsValue.vNum 5, [], []⟩), (1, none)], 2⟩ ∧
      loadEntityStart true (some σpost) (JsValue.vNum 5) ≠ .fetch ∧
      alookup
        (⟨[("5", 1)], [(0, some ⟨"t", JsValue.vNum 5, [], []⟩), (1, none)], 2⟩ :
          EntityStoreState).buffers 1 = some none) := by
  refine ⟨by decide, by decide, by decide, by decide⟩

/--
Claim C2 (amended): a terminal transport error (code > 0) makes every
operation's error handler error the outward stream immediately with no retry,
evicting the operation's store entry (entity id for loadEntity / saveEntity /
deleteEntity, filter entry for the collection loads; createEntity has no
entry to evict), so the broken stream is no longer indexed; however a later
cache-enabled `loadEntity` does not re-fetch: the store hands back a fresh
empty replay stream (re-fetching happens only when caching is disabled or the
endpoint store is absent).
-/
theorem C2_terminal_error_amended (maxRetryValue : Int) (id : JsValue)
    (filter : FilterData) (count : Nat) (code : Int) (hcode : 0 < code) :
    (loadEntityErrorStep maxRetryValue id count code =
      ⟨true, some id, none, false, count⟩) ∧
    (loadCollectionErrorStep maxRetryValue filter count code =
      ⟨true, none, some filter, false, count⟩) ∧
    (paginatedLoadCollectionErrorStep maxRetryValue filter count code =
      ⟨true, none, some filter, false, count⟩) ∧
    (saveEntityErrorStep maxRetryValue id count code =
      ⟨true, some id, none, false, count⟩) ∧
    (deleteEntityErrorStep maxRetryValue id count code =
      ⟨true, some id, none, false, count⟩) ∧
    (createEntityErrorStep maxRetryValue count code =
      ⟨true, none, none, false, count⟩) ∧
    (∀ σ : EntityStoreState,
      alookup (σ.unregister id).entitiesObservables (jsPropKey id) = none) ∧
    (∀ (hashF : FilterData → String) (s : CollectionStore),
      alookup (CollectionStore.unregister hashF s filter).collections
          (hashF filter) = none ∧
      alookup (CollectionStore.unregister hashF s filter).collectionObservables
          (hashF filter) = none ∧
      alookup (CollectionStore.unregister hashF s filter).filters
          (hashF filter) = none) ∧
    (∀ σ : EntityStoreState, alookup σ.entitiesObservables (jsPropKey id) = none →
      loadEntityStart true (some σ) id =
        .cachedReturn σ.nextStream
          ⟨aset σ.entitiesObservables (jsPropKey id) σ.nextStream,
            aset σ.buffers σ.nextStream none, σ.nextStream + 1⟩ ∧
      alookup (aset σ.buffers σ.nextStream none) σ.nextStream = some none ∧
      loadEntityStart false (some σ) id = .fetch ∧
      loadEntityStart true none id = .fetch) := by
  refine ⟨by simp [loadEntityErrorStep, hcode], by simp [loadCollectionErrorStep, hcode],
    by simp [paginatedLoadCollectionErrorStep, hcode],
    by simp [saveEntityErrorStep, hcode], by simp [deleteEntityErrorStep, hcode],
    by simp [createEntityErrorStep, hcode], ?_, ?_, ?_⟩
  · intro σ
    exact alookup_adelete_self σ.entitiesObservables (jsPropKey id)
  · intro hashF s
    exact ⟨alookup_adelete_self s.collections (hashF filter),
      alookup_adelete_self s.collectionObservables (hashF filter),
      alookup_adelete_self s.filters (hashF filter)⟩
  · intro σ hnone
    have hobs : σ.getEntityObservable id false =
        (σ.nextStream,
          ⟨aset σ.entitiesObservables (jsPropKey id) σ.nextStream,
            aset σ.buffers σ.nextStream none, σ.nextStream + 1⟩) := by
      unfold EntityStoreState.getEntityObservable
      rw [hnone]
    refine ⟨?_, alookup_aset_self σ.buffers σ.nextStream none, rfl, rfl⟩
    show LoadEntityStart.cachedReturn (σ.getEntityObservable id false).1
      (σ.getEntityObservable id false).2 = _
    rw [hobs]

/--
Witness for C2 (amended) at code 5, id 5, filter `{a: 1}`: the saveEntity
handler errors with no retry and evicts, and the evicted id yields a fresh
empty stream on the next cached lookup.
-/
theorem C2_terminal_error_amended_witness :
    (0 : Int) < 5 ∧
    ((loadEntityErrorStep 5 (JsValue.vNum 5) 0 5 =
      ⟨true, some (JsValue.vNum 5), none, false, 0⟩) ∧
    (loadCollectionErrorStep 5 [("a", JsValue.vNum 1)] 0 5 =
      ⟨true, none, some [("a", JsValue.vNum 1)], false, 0⟩) ∧
    (paginatedLoadCollectionErrorStep 5 [("a", JsValue.vNum 1)] 0 5 =
      ⟨true, none, some [("a", JsValue.vNum 1)], false, 0⟩) ∧
    (saveEntityErrorStep 5 (JsValue.vNum 5) 0 5 =
      ⟨true, some (JsValue.vNum 5), none, false, 0⟩) ∧
    (deleteEntityErrorStep 5 (JsValue.vNum 5) 0 5 =
      ⟨true, some (JsValue.vNum 5), none, false, 0⟩) ∧
    (createEntityErrorStep 5 0 5 = ⟨true, none, none, false, 0⟩) ∧
    (∀ σ : EntityStoreState,
      alookup (σ.unregister (JsValue.vNum 5)).entitiesObservables
        (jsPropKey (JsValue.vNum 5)) = none) ∧
    (∀ (hashF : FilterData → String) (s : CollectionStore),
      alookup (CollectionStore.unregister hashF s [("a", JsValue.vNum 1)]).collections
          (hashF [("a", JsValue.vNum 1)]) = none ∧
      alookup
          (CollectionStore.unregister hashF s
            [("a", JsValue.vNum 1)]).collectionObservables
          (hashF [("a", JsValue.vNum 1)]) = none ∧
      alookup (CollectionStore.unregister hashF s [("a", JsValue.vNum 1)]).filters
          (hashF [("a", JsValue.vNum 1)]) = none) ∧
    (∀ σ : EntityStoreState,
      alookup σ.entitiesObservables (jsPropKey (JsValue.vNum 5)) = none →
      loadEntityStart true (some σ) (JsValue.vNum 5) =
        .cachedReturn σ.nextStream
          ⟨aset σ.entitiesObservables (jsPropKey (JsValue.vNum 5)) σ.nextStream,
            aset σ.buffers σ.nextStream none, σ.nextStream + 1⟩ ∧
      alookup (aset σ.buffers σ.nextStream none) σ.nextStream = some none ∧
      loadEntityStart false (some σ) (JsValue.vNum 5) = .fetch ∧
      loadEntityStart true none (JsValue.vNum 5) = .fetch)) :=
  ⟨by decide,
    C2_terminal_error_amended 5 (JsValue.vNum 5) [("a", JsValue.vNum 1)] 0 5 (by decide)⟩

/--
The exclusion loop of `saveEntity`: `if (dataToSave[key]) delete dataToSave[key]`
— only keys whose current value is truthy are removed.
-/
def stripExclusions (exclusions : List String) (dataToSave : EntityDataSet) :
    EntityDataSet :=
  exclusions.foldl
    (fun d key => if (omGet d key).truthy then omDelete d key else d) dataToSave

/--
`saveEntity`'s outgoing data: the diff when the selected transport declares
`useDiff`, the full attribute clone otherwise, then the exclusion loop.
-/
def saveEntityDataToSave (useDiff : Bool) (entity : DataEntity)
    (exclusions : List String) : EntityDataSet :=
  stripExclusions exclusions (if useDiff then entity.getDiff else entity.getClone)

/-- How `saveEntity` proceeds after computing `dataToSave`. -/
inductive SaveDispatch where
  | transportCall (dataToSave : EntityDataSet) : SaveDispatch
  | reloadViaLoadEntity : SaveDispatch
  | emitExistingEntity : SaveDispatch
  deriving DecidableEq, Repr

/--
The dispatch at the bottom of `saveEntity`:
`if (!useDiff || Object.keys(dataToSave).length > 0)` call the transport,
`else if (forceReload)` reload through `loadEntity`, else emit the existing
entity on the returned stream.
-/
def saveEntityDispatch (useDiff forceReload : Bool) (dataToSave : EntityDataSet) :
    SaveDispatch :=
  if useDiff = false ∨ 0 < (omKeys dataToSave).length then .transportCall dataToSave
  else if forceReload then .reloadViaLoadEntity
  else .emitExistingEntity

theorem stripExclusions_get (exclusions : List String) (d : EntityDataSet) (k : String) :
    omGet (stripExclusions exclusions d) k =
      if k ∈ exclusions ∧ (omGet d k).truthy = true then JsValue.vUndefined
      else omGet d k := by
  induction exclusions generalizing d with
  | nil => simp [stripExclusions]
  | cons x rest ih =>
    have hstep : stripExclusions (x :: rest) d =
        stripExclusions rest (if (omGet d x).truthy then omDelete d x else d) := rfl
    rw [hstep]
    by_cases hk : k = x
    · subst hk
      by_cases ht : (omGet d k).truthy = true
      · rw [if_pos ht, ih]
        rw [omGet_omDelete_self]
        have : ¬(k ∈ rest ∧ (JsValue.vUndefined).truthy = true) := by
          intro hc
          cases hc.2
        rw [if_neg this, if_pos ⟨List.mem_cons_self k rest, ht⟩]
      · rw [if_neg ht, ih]
        have h1 : ¬(k ∈ rest ∧ (omGet d k).truthy = true) := fun hc => ht hc.2
        have h2 : ¬(k ∈ k :: rest ∧ (omGet d k).truthy = true) := fun hc => ht hc.2
        rw [if_neg h1, if_neg h2]
    · have hmem : k ∈ x :: rest ↔ k ∈ rest := by
        constructor
        · intro h
          rcases List.mem_cons.mp h with h | h
          · exact absurd h hk
          · exact h
        · exact List.mem_cons_of_mem x
      by_cases ht : (omGet d x).truthy = true
      · rw [if_pos ht, ih]
        rw [omGet_omDelete_ne d x k hk]
        by_cases hc : k ∈ rest ∧ (omGet d k).truthy = true
        · rw [if_pos hc, if_pos ⟨hmem.mpr hc.1, hc.2⟩]
        · rw [if_neg hc, if_neg (fun hc2 => hc ⟨hmem.mp hc2.1, hc2.2⟩)]
      · rw [if_neg ht, ih]
        by_cases hc : k ∈ rest ∧ (omGet d k).truthy = true
        · rw [if_pos hc, if_pos ⟨hmem.mpr hc.1, hc.2⟩]
        · rw [if_neg hc, if_neg (fun hc2 => hc ⟨hmem.mp hc2.1, hc2.2⟩)]

/--
Counterexample for C8: with a non-diff transport, an excluded field whose
value is falsy (here `n = 0`) survives the exclusion loop and is sent anyway,
because the loop deletes only truthy-valued keys.
-/
theorem C8_saveEntity_counterexample :
    omGet
        (saveEntityDataToSave false
          (mkDataEntity "t" [("n", JsValue.vNum 0)] (JsValue.vNum 1)) ["n"]) "n" =
      JsValue.vNum 0 ∧
    JsValue.vNum 0 ≠ JsValue.vUndefined ∧
    saveEntityDispatch false false
        (saveEntityDataToSave false
          (mkDataEntity "t" [("n", JsValue.vNum 0)] (JsValue.vNum 1)) ["n"]) =
      .transportCall
        (saveEntityDataToSave false
          (mkDataEntity "t" [("n", JsValue.vNum 0)] (JsValue.vNum 1)) ["n"]) := by
  refine ⟨by decide, by decide, by decide⟩

/--
Claim C8 (amended): `saveEntity` sends the diff when the transport declares
`useDiff` and the full clone otherwise, with excluded fields removed only
when their outgoing value is truthy (falsy-valued excluded fields are kept);
when the transport is diff-based and the outgoing data is empty no transport
call is made — `forceReload` reloads through `loadEntity`, otherwise the
existing entity is emitted.
-/
theorem C8_saveEntity_amended (useDiff forceReload : Bool) (e : DataEntity)
    (exclusions : List String) :
    (∀ k, omGet (saveEntityDataToSave useDiff e exclusions) k =
      if k ∈ exclusions ∧
          (omGet (if useDiff then e.getDiff else e.getClone) k).truthy = true
      then JsValue.vUndefined
      else omGet (if useDiff then e.getDiff else e.getClone) k) ∧
    (useDiff = false ∨ saveEntityDataToSave useDiff e exclusions ≠ [] →
      saveEntityDispatch useDiff forceReload (saveEntityDataToSave useDiff e exclusions) =
        .transportCall (saveEntityDataToSave useDiff e exclusions)) ∧
    (useDiff = true → saveEntityDataToSave useDiff e exclusions = [] →
      forceReload = true →
      saveEntityDispatch useDiff forceReload (saveEntityDataToSave useDiff e exclusions) =
        .reloadViaLoadEntity) ∧
    (useDiff = true → saveEntityDataToSave useDiff e exclusions = [] →
      forceReload = false →
      saveEntityDispatch useDiff forceReload (saveEntityDataToSave useDiff e exclusions) =
        .emitExistingEntity) := by
  refine ⟨fun k => stripExclusions_get exclusions _ k, ?_, ?_, ?_⟩
  · intro h
    unfold saveEntityDispatch
    rcases h with h | h
    · rw [if_pos (Or.inl h)]
    · have : 0 < (omKeys (saveEntityDataToSave useDiff e exclusions)).length := by
        rcases hd : saveEntityDataToSave useDiff e exclusions with _ | ⟨p, rest⟩
        · exact absurd hd h
        · simp [omKeys]
      rw [if_pos (Or.inr this)]
  · intro hdiff hempty hforce
    unfold saveEntityDispatch
    rw [hempty, hdiff, hforce]
    simp [omKeys]
  · intro hdiff hempty hforce
    unfold saveEntityDispatch
    rw [hempty, hdiff, hforce]
    simp [omKeys]

/--
Witness for C8 (amended): a diff-based save of an unchanged entity with a
force-reload request makes no transport call and reloads instead.
-/
theorem C8_saveEntity_amended_witness :
    (true = true) ∧
    (saveEntityDataToSave true (mkDataEntity "t" [("n", JsValue.vNum 7)] (JsValue.vNum 1))
        ["x"] = []) ∧
    (saveEntityDispatch true true
        (saveEntityDataToSave true
          (mkDataEntity "t" [("n", JsValue.vNum 7)] (JsValue.vNum 1)) ["x"]) =
      .reloadViaLoadEntity) ∧
    (∀ k, omGet
        (saveEntityDataToSave true
          (mkDataEntity "t" [("n", JsValue.vNum 7)] (JsValue.vNum 1)) ["x"]) k =
      if k ∈ ["x"] ∧
          (omGet
            (if true then
              (mkDataEntity "t" [("n", JsValue.vNum 7)] (JsValue.vNum 1)).getDiff
            else
              (mkDataEntity "t" [("n", JsValue.vNum 7)] (JsValue.vNum 1)).getClone)
            k).truthy = true
      then JsValue.vUndefined
      else omGet
        (if true then (mkDataEntity "t" [("n", JsValue.vNum 7)] (JsValue.vNum 1)).getDiff
         else (mkDataEntity "t" [("n", JsValue.vNum 7)] (JsValue.vNum 1)).getClone) k) :=
  ⟨rfl, by decide,
    (C8_saveEntity_amended true true
        (mkDataEntity "t" [("n", JsValue.vNum 7)] (JsValue.vNum 1)) ["x"]).2.2.1
      rfl (by decide) rfl,
    (C8_saveEntity_amended true true
        (mkDataEntity "t" [("n", JsValue.vNum 7)] (JsValue.vNum 1)) ["x"]).1⟩
